import Mathlib

/-!
# PRmanager: reviewer assignment and reassignment

A shallow embedding of `internal/service/service.go` and
`internal/repository/repository.go`.

* Go slices are Lean lists, Go strings are Lean strings.
* `math/rand` is an explicit stream of raw draws (`Rand`), so every theorem
  quantified over `Rand` speaks about every outcome of the generator.
* `time.Now()` is an explicit argument.
* The PostgreSQL database is a value of `Store` (one list of rows per table).
  A connection `Conn` pairs the tables with the outcomes of the upcoming
  round trips (`Outcome`: answered, failed with a driver error, or failed
  while the statement executes), so store errors are inputs as well.
* The table declarations are not part of the sources; what the schema accepts
  on `INSERT` is the parameter `Schema` (pull requests, reviewers) and
  `TeamSchema` (teams, users).
* The five state-changing service operations form a transition system (`Op`,
  `runOps`, `Reachable`) starting from the empty database.
* The handlers are modelled by their error branch: the response `writeError`
  sends for a given `err.Error()`.
-/

namespace PRManager

/-! ## Data model (`internal/models`) -/

/-- The `models.User` record, with the fields the service and repository use. -/
structure User where
  UserID : String
  Username : String
  TeamName : String
  IsActive : Bool
deriving DecidableEq, Repr

/-- The `models.PullRequest` record; times are instants counted as naturals. -/
structure PullRequest where
  PullRequestID : String
  PullRequestName : String
  AuthorID : String
  Status : String
  AssignedReviewers : List String
  CreatedAt : Nat
  MergedAt : Option Nat
deriving DecidableEq, Repr

/-- The `models.ReassignResult` record. -/
structure ReassignResult where
  PR : PullRequest
  NewReviewerID : String
deriving DecidableEq, Repr

deriving instance DecidableEq for Except

/-! ## Randomness (`math/rand`) -/

/-- The global random source: the stream of raw values it will yield. -/
abbrev Rand := Nat → Nat

/-- `rand.Intn(n)`: the next raw draw reduced into `[0, n)`, and the rest of the stream. -/
def Intn (r : Rand) (n : Nat) : Nat × Rand :=
  (r 0 % n, fun k => r (k + 1))

/-- The swap callback of `autoAssignReviewers`:
`candidates[i], candidates[j] = candidates[j], candidates[i]`.
Go panics on an index out of range; `Shuffle` never passes one. -/
def swap (candidates : List String) (i j : Nat) : List String :=
  match candidates[i]?, candidates[j]? with
  | some a, some b => (candidates.set i b).set j a
  | _, _ => candidates

/-- The loop of `rand.Shuffle`: `for ; i > 0; i-- { j := Intn(i+1); swap(i, j) }`. -/
def shuffleFrom : Nat → Rand → List String → List String × Rand
  | 0, r, c => (c, r)
  | i + 1, r, c => shuffleFrom i (Intn r (i + 2)).2 (swap c (i + 1) (Intn r (i + 2)).1)

/-- `rand.Shuffle(len(candidates), swap)`: Fisher-Yates from the last index down. -/
def Shuffle (r : Rand) (candidates : List String) : List String × Rand :=
  shuffleFrom (candidates.length - 1) r candidates

/-! ## Assignment policy (`service.go`, helper methods) -/

/-- The filter loop of `autoAssignReviewers`: append the id of every user that is
not the author and is active. -/
def autoAssignCandidates (authorID : String) (teamUsers : List User) : List String :=
  teamUsers.foldl
    (fun candidates user =>
      if user.UserID ≠ authorID ∧ user.IsActive = true then candidates ++ [user.UserID]
      else candidates)
    []

/-- `Service.autoAssignReviewers`. -/
def autoAssignReviewers (r : Rand) (authorID : String) (teamUsers : List User) : List String :=
  let candidates := autoAssignCandidates authorID teamUsers
  if candidates.length = 0 then []
  else
    let candidates := (Shuffle r candidates).1
    let maxReviewers := if candidates.length < 2 then candidates.length else 2
    candidates.take maxReviewers

/-- The membership loop used twice in the service
(`for _, reviewer := range pr.AssignedReviewers { if reviewer == id { found = true; break } }`). -/
def isCurrentReviewer (pr : PullRequest) (userID : String) : Bool :=
  pr.AssignedReviewers.any (fun reviewer => decide (reviewer = userID))

/-- The outer loop of `selectNewReviewer`: the ids still available. -/
def availableCandidates (pr : PullRequest) (oldReviewerID : String)
    (candidates : List User) : List String :=
  candidates.foldl
    (fun available candidate =>
      if candidate.UserID ≠ pr.AuthorID ∧ candidate.UserID ≠ oldReviewerID then
        if isCurrentReviewer pr candidate.UserID = false then available ++ [candidate.UserID]
        else available
      else available)
    []

/-- `Service.selectNewReviewer`: the index `rand.Intn(len)` is always in range. -/
def selectNewReviewer (r : Rand) (pr : PullRequest) (oldReviewerID : String)
    (candidates : List User) : Except String String :=
  if h : (availableCandidates pr oldReviewerID candidates).length = 0 then
    .error "no available candidates"
  else
    .ok ((availableCandidates pr oldReviewerID candidates).get
      ⟨(Intn r (availableCandidates pr oldReviewerID candidates).length).1,
        Nat.mod_lt _ (Nat.pos_of_ne_zero h)⟩)

/-- Users of a list that may be picked on creation: active and not the author. -/
def eligibleForCreate (authorID : String) (teamUsers : List User) : List User :=
  teamUsers.filter (fun u => decide (u.UserID ≠ authorID) && u.IsActive)

/-- Users of a pool that may replace a reviewer: not the author, not the old
reviewer, not already assigned. -/
def eligibleForReplace (pr : PullRequest) (oldReviewerID : String)
    (candidates : List User) : List User :=
  candidates.filter (fun u =>
    decide (u.UserID ≠ pr.AuthorID) && decide (u.UserID ≠ oldReviewerID)
      && decide (u.UserID ∉ pr.AssignedReviewers))

/-! ## The database (`pgxpool`), as the repository sees it -/

/-- A row of table `teams`. -/
structure TeamRow where
  id : String
  name : String
deriving DecidableEq, Repr

/-- A row of table `users`. -/
structure UserRow where
  id : String
  username : String
  team_id : String
  is_active : Bool
deriving DecidableEq, Repr

/-- A row of table `pull_requests`; `merged_at` is nullable. -/
structure PullRequestRow where
  id : String
  title : String
  author_id : String
  status : String
  created_at : Nat
  merged_at : Option Nat
deriving DecidableEq, Repr

/-- A row of table `pr_reviewers`. -/
structure ReviewerRow where
  pr_id : String
  user_id : String
deriving DecidableEq, Repr

/-- The contents of the four tables. -/
structure Store where
  teams : List TeamRow
  users : List UserRow
  pull_requests : List PullRequestRow
  pr_reviewers : List ReviewerRow
deriving DecidableEq, Repr

/-- The table declarations are not among the sources, so the constraints they
put on the two `INSERT` statements used here are a parameter: given the tables
as the running transaction sees them and the new row, `none` accepts the row and
`some msg` rejects it with the driver message `msg`. The `UPDATE` and `DELETE`
statements are taken to be accepted. -/
structure Schema where
  pull_requests_insert : Store → PullRequestRow → Option String
  pr_reviewers_insert : Store → ReviewerRow → Option String

/-- A schema without constraints. -/
def Schema.free : Schema :=
  ⟨fun _ _ => none, fun _ _ => none⟩

/-- A schema with primary keys `pull_requests(id)` and `pr_reviewers(pr_id, user_id)`. -/
def Schema.keyed : Schema :=
  ⟨fun db row =>
      if db.pull_requests.any (fun x => decide (x.id = row.id)) then some "duplicate key" else none,
    fun db row =>
      if db.pr_reviewers.any (fun x => decide (x = row)) then some "duplicate key" else none⟩

/-- The outcome of one round trip to the database. `answered`: the database
answers. `failed msg`: the call itself returns the driver error `msg` (no
connection, context already cancelled). `cut n msg`: the statement is sent and
fails with `msg` while it executes, after `n` result rows have been delivered. -/
inductive Outcome where
  | answered
  | failed (msg : String)
  | cut (n : Nat) (msg : String)
deriving DecidableEq, Repr

/-- A connection: the committed tables, and the outcomes of the round trips to
come. When the list is used up every later round trip is answered. -/
structure Conn where
  db : Store
  outcomes : List Outcome
deriving DecidableEq, Repr

/-- One round trip whose error the caller receives: `Begin`, `Exec`, `Commit`,
and `QueryRow(...).Scan`, which returns the error of a statement that fails
while it executes as well. `none`: answered; `some msg`: the error. -/
def Conn.roundTrip (c : Conn) : Option String × Conn :=
  match c.outcomes with
  | [] => (none, c)
  | .answered :: rest => (none, ⟨c.db, rest⟩)
  | .failed msg :: rest => (some msg, ⟨c.db, rest⟩)
  | .cut _ msg :: rest => (some msg, ⟨c.db, rest⟩)

/-- One `Query` round trip followed by the loop `for rows.Next()`. `Query`
returns an error only when the call itself fails. When the statement fails while
it executes, `rows.Next()` ends after the rows delivered so far and the error
stays in `rows.Err()`, which the repository never reads: the loop just sees
fewer rows. The result is the error of `Query`, or how many rows the loop sees
(`none`: all of them). -/
def Conn.query (c : Conn) : Except String (Option Nat) × Conn :=
  match c.outcomes with
  | [] => (.ok none, c)
  | .answered :: rest => (.ok none, ⟨c.db, rest⟩)
  | .failed msg :: rest => (.error msg, ⟨c.db, rest⟩)
  | .cut n _ :: rest => (.ok (some n), ⟨c.db, rest⟩)

/-- The rows a loop `for rows.Next()` sees of the rows the statement selects. -/
def readRows {α : Type} (delivered : Option Nat) (rows : List α) : List α :=
  match delivered with
  | none => rows
  | some n => rows.take n

/-- The rows of `users u JOIN teams t ON u.team_id = t.id`. -/
def usersJoinTeams (db : Store) : List (UserRow × TeamRow) :=
  db.users.flatMap (fun u => (db.teams.filter (fun t => decide (u.team_id = t.id))).map (fun t => (u, t)))

/-- The rows of `SELECT user_id FROM pr_reviewers WHERE pr_id = $1`. -/
def reviewersOf (db : Store) (prID : String) : List String :=
  (db.pr_reviewers.filter (fun row => decide (row.pr_id = prID))).map (fun row => row.user_id)

/-! ## Repository (`repository.go`) -/

namespace Repository

/-- `Repository.GetUser`. -/
def GetUser (c : Conn) (userID : String) : Except String User × Conn :=
  match c.roundTrip with
  | (some msg, c1) => (.error ("query user: " ++ msg), c1)
  | (none, c1) =>
    match (usersJoinTeams c1.db).find? (fun ut => decide (ut.1.id = userID)) with
    | none => (.error "user not found", c1)
    | some ut => (.ok ⟨ut.1.id, ut.1.username, ut.2.name, ut.1.is_active⟩, c1)

/-- `Repository.GetActiveUsersByTeam`: `Query` and a `rows.Next()` loop. -/
def GetActiveUsersByTeam (c : Conn) (teamName : String) : Except String (List User) × Conn :=
  match c.query with
  | (.error msg, c1) => (.error ("query active users: " ++ msg), c1)
  | (.ok delivered, c1) =>
    (.ok (readRows delivered (((usersJoinTeams c1.db).filter
        (fun ut => decide (ut.2.name = teamName) && decide (ut.1.is_active = true))).map
        (fun ut => ⟨ut.1.id, ut.1.username, teamName, ut.1.is_active⟩))), c1)

/-- `Repository.PRExists`. -/
def PRExists (c : Conn) (prID : String) : Except String Bool × Conn :=
  match c.roundTrip with
  | (some msg, c1) => (.error msg, c1)
  | (none, c1) => (.ok (c1.db.pull_requests.any (fun row => decide (row.id = prID))), c1)

/-- The loop `for _, reviewerID := range ids { tx.Exec("INSERT INTO pr_reviewers ...") }`
of `CreatePullRequest` and `AssignReviewers`, run on the tables `db` of the open
transaction. -/
def insertReviewers (sch : Schema) (prID : String) :
    List String → Store → Conn → Except String Store × Conn
  | [], db, c => (.ok db, c)
  | reviewerID :: rest, db, c =>
    match c.roundTrip with
    | (some msg, c1) => (.error ("assign reviewer " ++ reviewerID ++ ": " ++ msg), c1)
    | (none, c1) =>
      match sch.pr_reviewers_insert db ⟨prID, reviewerID⟩ with
      | some msg => (.error ("assign reviewer " ++ reviewerID ++ ": " ++ msg), c1)
      | none =>
        insertReviewers sch prID rest
          ⟨db.teams, db.users, db.pull_requests, db.pr_reviewers ++ [⟨prID, reviewerID⟩]⟩ c1

/-- `Repository.CreatePullRequest`: one transaction; the deferred `Rollback`
leaves the committed tables as they were on every error. The `INSERT` names no
`created_at` or `merged_at`: the first is the column default `dbNow`, the
second is null. -/
def CreatePullRequest (sch : Schema) (dbNow : Nat) (c : Conn) (pr : PullRequest) :
    Except String Unit × Conn :=
  match c.roundTrip with
  | (some msg, c1) => (.error ("begin transaction: " ++ msg), c1)
  | (none, c1) =>
    match c1.roundTrip with
    | (some msg, c2) => (.error ("insert pull request: " ++ msg), c2)
    | (none, c2) =>
      match sch.pull_requests_insert c2.db
          ⟨pr.PullRequestID, pr.PullRequestName, pr.AuthorID, pr.Status, dbNow, none⟩ with
      | some msg => (.error ("insert pull request: " ++ msg), c2)
      | none =>
        match insertReviewers sch pr.PullRequestID pr.AssignedReviewers
            ⟨c2.db.teams, c2.db.users,
              c2.db.pull_requests ++
                [⟨pr.PullRequestID, pr.PullRequestName, pr.AuthorID, pr.Status, dbNow, none⟩],
              c2.db.pr_reviewers⟩ c2 with
        | (.error e, c3) => (.error e, c3)
        | (.ok db1, c3) =>
          match c3.roundTrip with
          | (some msg, c4) => (.error msg, c4)
          | (none, c4) => (.ok (), ⟨db1, c4.outcomes⟩)

/-- `Repository.GetPullRequest`: the row by `QueryRow`, then its reviewer rows by
`Query` and a `rows.Next()` loop. -/
def GetPullRequest (c : Conn) (prID : String) : Except String PullRequest × Conn :=
  match c.roundTrip with
  | (some msg, c1) => (.error ("query pull request: " ++ msg), c1)
  | (none, c1) =>
    match c1.db.pull_requests.find? (fun row => decide (row.id = prID)) with
    | none => (.error "pull request not found", c1)
    | some row =>
      match c1.query with
      | (.error msg, c2) => (.error ("query reviewers: " ++ msg), c2)
      | (.ok delivered, c2) =>
        (.ok ⟨row.id, row.title, row.author_id, row.status,
            readRows delivered (reviewersOf c2.db prID), row.created_at, row.merged_at⟩, c2)

/-- The two `UPDATE pull_requests` statements of `UpdatePullRequestStatus`. -/
def updateStatusRow (prID status : String) (mergedAt : Option Nat)
    (row : PullRequestRow) : PullRequestRow :=
  if row.id = prID then
    match mergedAt with
    | some t => ⟨row.id, row.title, row.author_id, status, row.created_at, some t⟩
    | none => ⟨row.id, row.title, row.author_id, status, row.created_at, row.merged_at⟩
  else row

/-- `Repository.UpdatePullRequestStatus`: a transaction, then `GetPullRequest`. -/
def UpdatePullRequestStatus (c : Conn) (prID status : String) (mergedAt : Option Nat) :
    Except String PullRequest × Conn :=
  match c.roundTrip with
  | (some msg, c1) => (.error ("begin transaction: " ++ msg), c1)
  | (none, c1) =>
    match c1.roundTrip with
    | (some msg, c2) => (.error ("update pull request status: " ++ msg), c2)
    | (none, c2) =>
      match c2.roundTrip with
      | (some msg, c3) => (.error msg, c3)
      | (none, c3) =>
        GetPullRequest
          ⟨⟨c3.db.teams, c3.db.users,
              c3.db.pull_requests.map (updateStatusRow prID status mergedAt),
              c3.db.pr_reviewers⟩, c3.outcomes⟩ prID

/-- `Repository.AssignReviewers`: one transaction. -/
def AssignReviewers (sch : Schema) (c : Conn) (prID : String) (reviewerIDs : List String) :
    Except String Unit × Conn :=
  match c.roundTrip with
  | (some msg, c1) => (.error ("begin transaction: " ++ msg), c1)
  | (none, c1) =>
    match insertReviewers sch prID reviewerIDs c1.db c1 with
    | (.error e, c2) => (.error e, c2)
    | (.ok db1, c2) =>
      match c2.roundTrip with
      | (some msg, c3) => (.error msg, c3)
      | (none, c3) => (.ok (), ⟨db1, c3.outcomes⟩)

/-- The tables after `DELETE FROM pr_reviewers WHERE pr_id = $1 AND user_id = $2`. -/
def deleteReviewer (db : Store) (prID userID : String) : Store :=
  ⟨db.teams, db.users, db.pull_requests,
    db.pr_reviewers.filter (fun row => !(decide (row.pr_id = prID) && decide (row.user_id = userID)))⟩

/-- `Repository.ReassignReviewer`: `DELETE` and `INSERT` in one transaction. -/
def ReassignReviewer (sch : Schema) (c : Conn) (prID oldReviewerID newReviewerID : String) :
    Except String Unit × Conn :=
  match c.roundTrip with
  | (some msg, c1) => (.error ("begin transaction: " ++ msg), c1)
  | (none, c1) =>
    match c1.roundTrip with
    | (some msg, c2) => (.error ("remove old reviewer: " ++ msg), c2)
    | (none, c2) =>
      match c2.roundTrip with
      | (some msg, c3) => (.error ("add new reviewer: " ++ msg), c3)
      | (none, c3) =>
        match sch.pr_reviewers_insert (deleteReviewer c3.db prID oldReviewerID)
            ⟨prID, newReviewerID⟩ with
        | some msg => (.error ("add new reviewer: " ++ msg), c3)
        | none =>
          match c3.roundTrip with
          | (some msg, c4) => (.error msg, c4)
          | (none, c4) =>
            (.ok (),
              ⟨⟨c4.db.teams, c4.db.users, c4.db.pull_requests,
                  (deleteReviewer c4.db prID oldReviewerID).pr_reviewers ++
                    [⟨prID, newReviewerID⟩]⟩, c4.outcomes⟩)

end Repository

/-! ## Service (`service.go`) -/

namespace Service

/-- `Service.CreatePullRequest`; `now` is `time.Now()`. -/
def CreatePullRequest (sch : Schema) (r : Rand) (now dbNow : Nat) (c : Conn)
    (prID title authorID : String) : Except String PullRequest × Conn :=
  match Repository.PRExists c prID with
  | (.error e, c1) => (.error e, c1)
  | (.ok true, c1) => (.error "PR_EXISTS", c1)
  | (.ok false, c1) =>
    match Repository.GetUser c1 authorID with
    | (.error _, c2) => (.error "AUTHOR_NOT_FOUND", c2)
    | (.ok author, c2) =>
      match Repository.GetActiveUsersByTeam c2 author.TeamName with
      | (.error _, c3) => (.error "TEAM_NOT_FOUND", c3)
      | (.ok teamUsers, c3) =>
        match Repository.CreatePullRequest sch dbNow c3
            ⟨prID, title, authorID, "OPEN", autoAssignReviewers r authorID teamUsers, now, none⟩ with
        | (.error e, c4) => (.error e, c4)
        | (.ok _, c4) =>
          if (autoAssignReviewers r authorID teamUsers).length > 0 then
            match Repository.AssignReviewers sch c4 prID
                (autoAssignReviewers r authorID teamUsers) with
            | (.error e, c5) => (.error e, c5)
            | (.ok _, c5) =>
              (.ok ⟨prID, title, authorID, "OPEN", autoAssignReviewers r authorID teamUsers,
                  now, none⟩, c5)
          else
            (.ok ⟨prID, title, authorID, "OPEN", autoAssignReviewers r authorID teamUsers,
                now, none⟩, c4)

/-- `Service.MergePullRequest`; `now` is `time.Now()`. -/
def MergePullRequest (now : Nat) (c : Conn) (prID : String) : Except String PullRequest × Conn :=
  match Repository.GetPullRequest c prID with
  | (.error _, c1) => (.error "NOT_FOUND", c1)
  | (.ok pr, c1) =>
    if pr.Status = "MERGED" then (.ok pr, c1)
    else Repository.UpdatePullRequestStatus c1 prID "MERGED" (some now)

/-- `Service.ReassignReviewer`. -/
def ReassignReviewer (sch : Schema) (r : Rand) (c : Conn) (prID oldReviewerID : String) :
    Except String ReassignResult × Conn :=
  match Repository.GetPullRequest c prID with
  | (.error _, c1) => (.error "NOT_FOUND", c1)
  | (.ok pr, c1) =>
    if pr.Status = "MERGED" then (.error "PR_MERGED", c1)
    else if isCurrentReviewer pr oldReviewerID = false then (.error "NOT_ASSIGNED", c1)
    else
      match Repository.GetUser c1 oldReviewerID with
      | (.error _, c2) => (.error "NOT_FOUND", c2)
      | (.ok oldReviewer, c2) =>
        match Repository.GetActiveUsersByTeam c2 oldReviewer.TeamName with
        | (.error _, c3) => (.error "TEAM_NOT_FOUND", c3)
        | (.ok candidates, c3) =>
          match selectNewReviewer r pr oldReviewerID candidates with
          | .error _ => (.error "NO_CANDIDATE", c3)
          | .ok newReviewerID =>
            match Repository.ReassignReviewer sch c3 prID oldReviewerID newReviewerID with
            | (.error e, c4) => (.error e, c4)
            | (.ok _, c4) =>
              match Repository.GetPullRequest c4 prID with
              | (.error e, c5) => (.error e, c5)
              | (.ok updatedPR, c5) => (.ok ⟨updatedPR, newReviewerID⟩, c5)

end Service

/-! ## Teams and users (`CreateTeam`, `SetUserActive`) -/

/-- The `models.Team` record. -/
structure Team where
  TeamName : String
  Members : List User
deriving DecidableEq, Repr

/-- What the missing table declarations decide for `CreateTeam`: for
`INSERT INTO teams (name) VALUES ($1) RETURNING id` either a driver message
(the row is rejected) or the generated id, and for `INSERT INTO users` whether
the row is accepted (`none`) or rejected (`some msg`). -/
structure TeamSchema where
  teams_insert : Store → String → Except String String
  users_insert : Store → UserRow → Option String

/-- No constraint; the generated team id is the team name. -/
def TeamSchema.free : TeamSchema :=
  ⟨fun _ name => .ok name, fun _ _ => none⟩

/-- Unique team names and primary key `users(id)`; the generated team id is the
team name. -/
def TeamSchema.keyed : TeamSchema :=
  ⟨fun db name =>
      if db.teams.any (fun t => decide (t.name = name)) then .error "duplicate key" else .ok name,
    fun db row =>
      if db.users.any (fun u => decide (u.id = row.id)) then some "duplicate key" else none⟩

namespace Repository

/-- `Repository.TeamExists`. -/
def TeamExists (c : Conn) (teamName : String) : Except String Bool × Conn :=
  match c.roundTrip with
  | (some msg, c1) => (.error msg, c1)
  | (none, c1) => (.ok (c1.db.teams.any (fun t => decide (t.name = teamName))), c1)

/-- The tables after `UPDATE users SET username, team_id, is_active WHERE id`. -/
def updateUser (db : Store) (teamID : String) (member : User) : Store :=
  ⟨db.teams,
    db.users.map (fun u =>
      if u.id = member.UserID then ⟨u.id, member.Username, teamID, member.IsActive⟩ else u),
    db.pull_requests, db.pr_reviewers⟩

/-- The member loop of `Repository.CreateTeam` on the tables `db` of the open
transaction: `SELECT id FROM users WHERE id = $1`, then `INSERT` on
`pgx.ErrNoRows`, `UPDATE` on a row, and the error itself otherwise. -/
def upsertMembers (tsch : TeamSchema) (teamID : String) :
    List User → Store → Conn → Except String Store × Conn
  | [], db, c => (.ok db, c)
  | member :: rest, db, c =>
    match c.roundTrip with
    | (some msg, c1) => (.error ("upsert user " ++ member.UserID ++ ": " ++ msg), c1)
    | (none, c1) =>
      if db.users.any (fun u => decide (u.id = member.UserID)) then
        match c1.roundTrip with
        | (some msg, c2) => (.error ("upsert user " ++ member.UserID ++ ": " ++ msg), c2)
        | (none, c2) => upsertMembers tsch teamID rest (updateUser db teamID member) c2
      else
        match c1.roundTrip with
        | (some msg, c2) => (.error ("upsert user " ++ member.UserID ++ ": " ++ msg), c2)
        | (none, c2) =>
          match tsch.users_insert db
              ⟨member.UserID, member.Username, teamID, member.IsActive⟩ with
          | some msg => (.error ("upsert user " ++ member.UserID ++ ": " ++ msg), c2)
          | none =>
            upsertMembers tsch teamID rest
              ⟨db.teams,
                db.users ++ [⟨member.UserID, member.Username, teamID, member.IsActive⟩],
                db.pull_requests, db.pr_reviewers⟩ c2

/-- `Repository.CreateTeam`: one transaction. -/
def CreateTeam (tsch : TeamSchema) (c : Conn) (team : Team) : Except String Unit × Conn :=
  match c.roundTrip with
  | (some msg, c1) => (.error ("begin transaction: " ++ msg), c1)
  | (none, c1) =>
    match c1.roundTrip with
    | (some msg, c2) => (.error ("insert team: " ++ msg), c2)
    | (none, c2) =>
      match tsch.teams_insert c2.db team.TeamName with
      | .error msg => (.error ("insert team: " ++ msg), c2)
      | .ok teamID =>
        match upsertMembers tsch teamID team.Members
            ⟨c2.db.teams ++ [⟨teamID, team.TeamName⟩], c2.db.users, c2.db.pull_requests,
              c2.db.pr_reviewers⟩ c2 with
        | (.error e, c3) => (.error e, c3)
        | (.ok db1, c3) =>
          match c3.roundTrip with
          | (some msg, c4) => (.error msg, c4)
          | (none, c4) => (.ok (), ⟨db1, c4.outcomes⟩)

/-- `Repository.UpdateUserActive`: an `UPDATE` outside any transaction, then `GetUser`. -/
def UpdateUserActive (c : Conn) (userID : String) (isActive : Bool) :
    Except String User × Conn :=
  match c.roundTrip with
  | (some msg, c1) => (.error ("update user active: " ++ msg), c1)
  | (none, c1) =>
    GetUser
      ⟨⟨c1.db.teams,
          c1.db.users.map (fun u =>
            if u.id = userID then ⟨u.id, u.username, u.team_id, isActive⟩ else u),
          c1.db.pull_requests, c1.db.pr_reviewers⟩, c1.outcomes⟩ userID

end Repository

namespace Service

/-- `Service.CreateTeam`. -/
def CreateTeam (tsch : TeamSchema) (c : Conn) (team : Team) : Except String Team × Conn :=
  match Repository.TeamExists c team.TeamName with
  | (.error e, c1) => (.error e, c1)
  | (.ok true, c1) => (.error "TEAM_EXISTS", c1)
  | (.ok false, c1) =>
    match Repository.CreateTeam tsch c1 team with
    | (.error e, c2) => (.error e, c2)
    | (.ok _, c2) => (.ok team, c2)

/-- `Service.SetUserActive`. -/
def SetUserActive (c : Conn) (userID : String) (isActive : Bool) : Except String User × Conn :=
  match Repository.UpdateUserActive c userID isActive with
  | (.error _, c1) => (.error "NOT_FOUND", c1)
  | (.ok user, c1) => (.ok user, c1)

end Service

/-! ## The service as a transition system -/

/-- A call of one of the five state-changing service operations, with its
arguments, the random stream and the clock readings it will see. -/
inductive Op where
  | createTeam (team : Team)
  | setUserActive (userID : String) (isActive : Bool)
  | createPullRequest (r : Rand) (now dbNow : Nat) (prID title authorID : String)
  | mergePullRequest (now : Nat) (prID : String)
  | reassignReviewer (r : Rand) (prID oldReviewerID : String)

/-- The tables after the call `op` on the tables `db`, over a connection whose
round trips have the given outcomes; the result of the call is dropped. -/
def Op.run (sch : Schema) (tsch : TeamSchema) (db : Store) (outcomes : List Outcome) :
    Op → Store
  | .createTeam team => (Service.CreateTeam tsch ⟨db, outcomes⟩ team).2.db
  | .setUserActive userID isActive => (Service.SetUserActive ⟨db, outcomes⟩ userID isActive).2.db
  | .createPullRequest r now dbNow prID title authorID =>
    (Service.CreatePullRequest sch r now dbNow ⟨db, outcomes⟩ prID title authorID).2.db
  | .mergePullRequest now prID => (Service.MergePullRequest now ⟨db, outcomes⟩ prID).2.db
  | .reassignReviewer r prID oldReviewerID =>
    (Service.ReassignReviewer sch r ⟨db, outcomes⟩ prID oldReviewerID).2.db

/-- The empty database. -/
def Store.empty : Store :=
  ⟨[], [], [], []⟩

/-- The tables after a sequence of calls, each with its own round-trip outcomes. -/
def runOps (sch : Schema) (tsch : TeamSchema) :
    Store → List (List Outcome × Op) → Store
  | db, [] => db
  | db, (outcomes, op) :: rest => runOps sch tsch (op.run sch tsch db outcomes) rest

/-- The store states the service can reach from the empty database. -/
def Reachable (sch : Schema) (tsch : TeamSchema) (db : Store) : Prop :=
  ∃ calls, runOps sch tsch Store.empty calls = db

/-- What a call of `Service.CreatePullRequest` can do to the tables, whatever it returns. -/
def CreateEffect (db db' : Store) (dbNow : Nat) (prID title authorID : String) : Prop :=
  db' = db ∨
    (db.pull_requests.any (fun row => decide (row.id = prID)) = false
      ∧ ∃ ids : List String, (∀ id ∈ ids, id ≠ authorID)
        ∧ db' = ⟨db.teams, db.users,
            db.pull_requests ++ [⟨prID, title, authorID, "OPEN", dbNow, none⟩],
            db.pr_reviewers ++ ids.map (fun id => ⟨prID, id⟩)⟩)

/-- What a call of `Service.MergePullRequest` can do to the tables. -/
def MergeEffect (db db' : Store) (now : Nat) (prID : String) : Prop :=
  db' = db ∨
    (∃ row, db.pull_requests.find? (fun x => decide (x.id = prID)) = some row
      ∧ row.status ≠ "MERGED"
      ∧ db' = ⟨db.teams, db.users,
          db.pull_requests.map (Repository.updateStatusRow prID "MERGED" (some now)),
          db.pr_reviewers⟩)

/-- What a call of `Service.ReassignReviewer` can do to the tables. -/
def ReassignEffect (db db' : Store) (prID oldReviewerID : String) : Prop :=
  db' = db ∨
    (∃ row newReviewerID, db.pull_requests.find? (fun x => decide (x.id = prID)) = some row
      ∧ row.status ≠ "MERGED"
      ∧ newReviewerID ≠ row.author_id
      ∧ db' = ⟨db.teams, db.users, db.pull_requests,
          (Repository.deleteReviewer db prID oldReviewerID).pr_reviewers
            ++ [⟨prID, newReviewerID⟩]⟩)

/-- The invariant the service keeps on the tables: every reviewer row belongs to a
stored pull request, pull request rows with one id have one author, and no
reviewer row names the author of its pull request. -/
def Inv (db : Store) : Prop :=
  (∀ rr ∈ db.pr_reviewers, ∃ row ∈ db.pull_requests, row.id = rr.pr_id)
    ∧ (∀ r1 ∈ db.pull_requests, ∀ r2 ∈ db.pull_requests,
        r1.id = r2.id → r1.author_id = r2.author_id)
    ∧ (∀ rr ∈ db.pr_reviewers, ∀ row ∈ db.pull_requests,
        row.id = rr.pr_id → row.author_id ≠ rr.user_id)

/-- What happens between the tables `db` and `db'` to the pull request `p` that
`db` holds as `row`: it is still there and its status is the same, or was not
`MERGED` and now is; and if it was `MERGED` the row (status and merge timestamp
included) and its reviewer rows are the same. -/
def KeepsMerged (db db' : Store) (p : String) (row : PullRequestRow) : Prop :=
  (∃ row', db'.pull_requests.find? (fun x => decide (x.id = p)) = some row'
      ∧ (row'.status = row.status ∨ (row.status ≠ "MERGED" ∧ row'.status = "MERGED")))
    ∧ (row.status = "MERGED" →
        db'.pull_requests.find? (fun x => decide (x.id = p)) = some row
          ∧ reviewersOf db' p = reviewersOf db p)

/-! ## Handlers (`internal/handlers`) -/

/-- The body `writeError` sends: the error code, the message and the HTTP status. -/
structure ErrorResponse where
  code : String
  message : String
  status : Nat
deriving DecidableEq, Repr

namespace prhandler

/-- The error branch of `Handler.CreatePullRequest`, on `err.Error()`. -/
def CreatePullRequest (err : String) : ErrorResponse :=
  if err = "PR_EXISTS" then ⟨"PR_EXISTS", "PR id already exists", 409⟩
  else if err = "AUTHOR_NOT_FOUND" ∨ err = "TEAM_NOT_FOUND" then
    ⟨"NOT_FOUND", "Author or team not found", 404⟩
  else ⟨"INTERNAL_ERROR", "Internal server error", 500⟩

/-- The error branch of `Handler.MergePullRequest`. -/
def MergePullRequest (_err : String) : ErrorResponse :=
  ⟨"NOT_FOUND", "PR not found", 404⟩

/-- The error branch of `Handler.ReassignReviewer`, on `err.Error()`. -/
def ReassignReviewer (err : String) : ErrorResponse :=
  if err = "PR_MERGED" then ⟨"PR_MERGED", "cannot reassign on merged PR", 409⟩
  else if err = "NOT_ASSIGNED" then
    ⟨"NOT_ASSIGNED", "reviewer is not assigned to this PR", 409⟩
  else if err = "NO_CANDIDATE" then
    ⟨"NO_CANDIDATE", "no active replacement candidate in team", 409⟩
  else if err = "NOT_FOUND" then ⟨"NOT_FOUND", "PR or user not found", 404⟩
  else ⟨"INTERNAL_ERROR", "Internal server error", 500⟩

end prhandler

namespace teamhandler

/-- The error branch of `Handler.CreateTeam`: the message is `err.Error()`. -/
def CreateTeam (err : String) : ErrorResponse :=
  ⟨"ERROR_CREATING_TEAM", err, 400⟩

/-- The error branch of `Handler.GetTeam`. -/
def GetTeam (_err : String) : ErrorResponse :=
  ⟨"NOT_FOUND", "Team not found", 404⟩

end teamhandler

namespace userhandler

/-- The error branch of `Handler.SetUserActive`. -/
def SetUserActive (_err : String) : ErrorResponse :=
  ⟨"NOT_FOUND", "User not found", 404⟩

/-- The error branch of `Handler.GetUserReviews`. -/
def GetUserReviews (_err : String) : ErrorResponse :=
  ⟨"NOT_FOUND", "User not found", 404⟩

end userhandler

/-! ## Lemmas on the policy -/

theorem swap_length (c : List String) (i j : Nat) : (swap c i j).length = c.length := by
  unfold swap
  split <;> simp

theorem set_perm_cons {α : Type} (a b : α) :
    ∀ (l : List α) (j : Nat), l[j]? = some b → (b :: l.set j a).Perm (a :: l) := by
  intro l
  induction l with
  | nil => intro j h; simp at h
  | cons x xs ih =>
    intro j h
    cases j with
    | zero =>
      simp at h
      subst h
      simpa using List.Perm.swap a x xs
    | succ j =>
      simp at h
      have h1 := ih j h
      simp only [List.set_cons_succ]
      exact (List.Perm.swap x b _).trans ((h1.cons x).trans (List.Perm.swap a x _))

theorem set_set_perm_self {α : Type} :
    ∀ (l : List α) (i j : Nat) (a b : α), l[i]? = some a → l[j]? = some b →
      ((l.set i b).set j a).Perm l := by
  intro l
  induction l with
  | nil => intro i j a b h; simp at h
  | cons x xs ih =>
    intro i j a b hi hj
    cases i with
    | zero =>
      simp at hi
      subst hi
      cases j with
      | zero =>
        simp at hj
        subst hj
        simp
      | succ j =>
        simp at hj
        simpa using set_perm_cons x b xs j hj
    | succ i =>
      simp at hi
      cases j with
      | zero =>
        simp at hj
        subst hj
        simpa using set_perm_cons x a xs i hi
      | succ j =>
        simp at hj
        simpa using ih i j a b hi hj

theorem swap_perm (c : List String) (i j : Nat) : (swap c i j).Perm c := by
  unfold swap
  split
  · next a b hi hj => exact set_set_perm_self c i j a b hi hj
  · exact List.Perm.refl _

theorem shuffleFrom_perm : ∀ (i : Nat) (r : Rand) (c : List String),
    (shuffleFrom i r c).1.Perm c := by
  intro i
  induction i with
  | zero => intro r c; exact List.Perm.refl _
  | succ i ih =>
    intro r c
    simp only [shuffleFrom]
    exact (ih _ _).trans (swap_perm _ _ _)

theorem Shuffle_perm (r : Rand) (c : List String) : (Shuffle r c).1.Perm c :=
  shuffleFrom_perm _ r c

theorem foldl_append_if {α β : Type} (p : α → Prop) [DecidablePred p] (f : α → β) :
    ∀ (l : List α) (acc : List β),
      l.foldl (fun c x => if p x then c ++ [f x] else c) acc
        = acc ++ (l.filter (fun x => decide (p x))).map f := by
  intro l
  induction l with
  | nil => intro acc; simp
  | cons x xs ih =>
    intro acc
    simp only [List.foldl_cons, ih]
    by_cases h : p x <;> simp [h, List.filter_cons]

theorem autoAssignCandidates_eq (authorID : String) (teamUsers : List User) :
    autoAssignCandidates authorID teamUsers
      = (teamUsers.filter
          (fun u => decide (u.UserID ≠ authorID ∧ u.IsActive = true))).map (fun u => u.UserID) := by
  unfold autoAssignCandidates
  rw [foldl_append_if (fun u : User => u.UserID ≠ authorID ∧ u.IsActive = true)]
  simp

theorem isCurrentReviewer_eq_false (pr : PullRequest) (userID : String) :
    isCurrentReviewer pr userID = false ↔ userID ∉ pr.AssignedReviewers := by
  unfold isCurrentReviewer
  simp [List.any_eq_false]
  constructor
  · intro h hm; exact h _ hm rfl
  · intro h x hx e; subst e; exact h hx

theorem availableCandidates_eq (pr : PullRequest) (oldReviewerID : String)
    (candidates : List User) :
    availableCandidates pr oldReviewerID candidates
      = (candidates.filter (fun u => decide (u.UserID ≠ pr.AuthorID ∧ u.UserID ≠ oldReviewerID
            ∧ u.UserID ∉ pr.AssignedReviewers))).map (fun u => u.UserID) := by
  unfold availableCandidates
  have h : ∀ (l : List User) (acc : List String),
      l.foldl (fun available candidate =>
        if candidate.UserID ≠ pr.AuthorID ∧ candidate.UserID ≠ oldReviewerID then
          if isCurrentReviewer pr candidate.UserID = false then available ++ [candidate.UserID]
          else available
        else available) acc
      = l.foldl (fun c x => if (x.UserID ≠ pr.AuthorID ∧ x.UserID ≠ oldReviewerID
            ∧ x.UserID ∉ pr.AssignedReviewers) then c ++ [x.UserID] else c) acc := by
    intro l
    induction l with
    | nil => intro acc; rfl
    | cons x xs ih =>
      intro acc
      simp only [List.foldl_cons]
      rw [← ih]
      congr 1
      by_cases h1 : x.UserID ≠ pr.AuthorID ∧ x.UserID ≠ oldReviewerID
      · by_cases h2 : x.UserID ∈ pr.AssignedReviewers
        · have h3 : ¬ (isCurrentReviewer pr x.UserID = false) := by
            rw [isCurrentReviewer_eq_false]; exact fun h => h h2
          simp [h1, h2, h3]
        · have h3 : isCurrentReviewer pr x.UserID = false := by
            rw [isCurrentReviewer_eq_false]; exact h2
          simp [h1, h2, h3]
      · have h4 : ¬ (x.UserID ≠ pr.AuthorID ∧ x.UserID ≠ oldReviewerID
            ∧ x.UserID ∉ pr.AssignedReviewers) := fun h => h1 ⟨h.1, h.2.1⟩
        rw [if_neg h1, if_neg h4]
  rw [h, foldl_append_if (fun u : User => u.UserID ≠ pr.AuthorID ∧ u.UserID ≠ oldReviewerID
            ∧ u.UserID ∉ pr.AssignedReviewers)]
  simp

theorem autoAssignReviewers_perm_take (r : Rand) (authorID : String) (teamUsers : List User) :
    ∃ l : List String, l.Perm (autoAssignCandidates authorID teamUsers)
      ∧ autoAssignReviewers r authorID teamUsers = l.take 2 := by
  unfold autoAssignReviewers
  by_cases h : (autoAssignCandidates authorID teamUsers).length = 0
  · refine ⟨[], ?_, ?_⟩
    · rw [List.length_eq_zero] at h; rw [h]
    · simp [h]
  · refine ⟨(Shuffle r (autoAssignCandidates authorID teamUsers)).1, Shuffle_perm _ _, ?_⟩
    simp only [h, if_false]
    split
    · next hlt => rw [List.take_of_length_le (Nat.le_refl _), List.take_of_length_le (by omega)]
    · rfl


/-! ## Initial reviewer selection -/

/-- C1: for every author, member list and random stream, `autoAssignReviewers`
returns `min 2 n` ids, where `n` counts the members that are active and are not
the author; the result is empty exactly when `n = 0`; and for the team
A (active), B (active), C (inactive) with author A it is `["B"]`. -/
theorem autoAssignReviewers_length (r : Rand) (authorID : String) (teamUsers : List User) :
    (autoAssignReviewers r authorID teamUsers).length
        = min 2 (teamUsers.filter
            (fun u => decide (u.IsActive = true ∧ u.UserID ≠ authorID))).length
      ∧ (autoAssignReviewers r authorID teamUsers = [] ↔
          (teamUsers.filter
            (fun u => decide (u.IsActive = true ∧ u.UserID ≠ authorID))).length = 0)
      ∧ autoAssignReviewers r "A"
          [⟨"A", "a", "core", true⟩, ⟨"B", "b", "core", true⟩, ⟨"C", "c", "core", false⟩]
          = ["B"] := by
  obtain ⟨l, hp, he⟩ := autoAssignReviewers_perm_take r authorID teamUsers
  have hn : l.length = (teamUsers.filter
      (fun u => decide (u.IsActive = true ∧ u.UserID ≠ authorID))).length := by
    rw [hp.length_eq, autoAssignCandidates_eq, List.length_map]
    congr 1
    apply List.filter_congr
    intro u _
    simp [and_comm]
  have hlen : (autoAssignReviewers r authorID teamUsers).length
      = min 2 (teamUsers.filter
          (fun u => decide (u.IsActive = true ∧ u.UserID ≠ authorID))).length := by
    rw [he, List.length_take, hn]
  refine ⟨hlen, ?_, rfl⟩
  rw [← List.length_eq_zero, hlen]
  omega

/-- C2: every id returned by `autoAssignReviewers` is the `UserID` of an active
member of the input list and differs from the author. -/
theorem autoAssignReviewers_mem (r : Rand) (authorID : String) (teamUsers : List User)
    (id : String) (h : id ∈ autoAssignReviewers r authorID teamUsers) :
    (∃ u ∈ teamUsers, u.UserID = id ∧ u.IsActive = true) ∧ id ≠ authorID := by
  obtain ⟨l, hp, he⟩ := autoAssignReviewers_perm_take r authorID teamUsers
  rw [he] at h
  have h1 : id ∈ autoAssignCandidates authorID teamUsers := hp.subset (List.mem_of_mem_take h)
  rw [autoAssignCandidates_eq] at h1
  simp only [List.mem_map, List.mem_filter, decide_eq_true_eq] at h1
  obtain ⟨u, ⟨hu, hne, hact⟩, rfl⟩ := h1
  exact ⟨⟨u, hu, rfl, hact⟩, hne⟩

theorem autoAssignReviewers_mem_witness :
    "B" ∈ autoAssignReviewers (fun _ => 0) "A"
        [⟨"A", "a", "core", true⟩, ⟨"B", "b", "core", true⟩, ⟨"C", "c", "core", false⟩]
      ∧ ((∃ u ∈ ([⟨"A", "a", "core", true⟩, ⟨"B", "b", "core", true⟩,
            ⟨"C", "c", "core", false⟩] : List User), u.UserID = "B" ∧ u.IsActive = true)
          ∧ "B" ≠ "A") :=
  ⟨by decide, autoAssignReviewers_mem (fun _ => 0) "A" _ "B" (by decide)⟩

/-- C3: when the `UserID`s of the member list are pairwise distinct, the list
returned by `autoAssignReviewers` has no duplicates, whatever the shuffle does. -/
theorem autoAssignReviewers_nodup (r : Rand) (authorID : String) (teamUsers : List User)
    (h : (teamUsers.map (fun u => u.UserID)).Nodup) :
    (autoAssignReviewers r authorID teamUsers).Nodup := by
  obtain ⟨l, hp, he⟩ := autoAssignReviewers_perm_take r authorID teamUsers
  rw [he]
  have h1 : (autoAssignCandidates authorID teamUsers).Nodup := by
    rw [autoAssignCandidates_eq]
    exact h.sublist ((List.filter_sublist _).map _)
  exact (hp.nodup_iff.mpr h1).sublist (List.take_sublist _ _)

theorem autoAssignReviewers_nodup_witness :
    (([⟨"A", "a", "core", true⟩, ⟨"B", "b", "core", true⟩, ⟨"C", "c", "core", true⟩,
        ⟨"D", "d", "core", true⟩] : List User).map (fun u => u.UserID)).Nodup
      ∧ (autoAssignReviewers (fun k => k) "A"
          [⟨"A", "a", "core", true⟩, ⟨"B", "b", "core", true⟩, ⟨"C", "c", "core", true⟩,
            ⟨"D", "d", "core", true⟩]).Nodup :=
  ⟨by decide, autoAssignReviewers_nodup (fun k => k) "A" _ (by decide)⟩

/-! ## Replacement selection -/

theorem mem_availableCandidates (pr : PullRequest) (oldReviewerID : String)
    (candidates : List User) (id : String) :
    id ∈ availableCandidates pr oldReviewerID candidates ↔
      (∃ u ∈ candidates, u.UserID = id) ∧ id ≠ pr.AuthorID ∧ id ≠ oldReviewerID
        ∧ id ∉ pr.AssignedReviewers := by
  rw [availableCandidates_eq]
  simp only [List.mem_map, List.mem_filter, decide_eq_true_eq]
  constructor
  · rintro ⟨u, ⟨hu, h2, h3, h4⟩, rfl⟩
    exact ⟨⟨u, hu, rfl⟩, h2, h3, h4⟩
  · rintro ⟨⟨u, hu, rfl⟩, h2, h3, h4⟩
    exact ⟨u, ⟨hu, h2, h3, h4⟩, rfl⟩

theorem selectNewReviewer_mem_available {r : Rand} {pr : PullRequest} {oldReviewerID : String}
    {candidates : List User} {id : String}
    (h : selectNewReviewer r pr oldReviewerID candidates = .ok id) :
    id ∈ availableCandidates pr oldReviewerID candidates := by
  unfold selectNewReviewer at h
  split at h
  · cases h
  · injection h with h
    rw [← h]
    exact List.get_mem _ _ _

/-- C4: an id returned by `selectNewReviewer` is the `UserID` of a member of the
candidate pool, is not the author, is not the old reviewer and is not among the
assigned reviewers of the pull request. -/
theorem selectNewReviewer_ok (r : Rand) (pr : PullRequest) (oldReviewerID : String)
    (candidates : List User) (id : String)
    (h : selectNewReviewer r pr oldReviewerID candidates = .ok id) :
    (∃ u ∈ candidates, u.UserID = id) ∧ id ≠ pr.AuthorID ∧ id ≠ oldReviewerID
      ∧ id ∉ pr.AssignedReviewers := by
  have hmem : id ∈ availableCandidates pr oldReviewerID candidates :=
    selectNewReviewer_mem_available h
  rw [mem_availableCandidates] at hmem
  exact hmem

theorem selectNewReviewer_ok_witness :
    selectNewReviewer (fun _ => 7) ⟨"pr1", "t", "A", "OPEN", ["B", "C"], 0, none⟩ "B"
        [⟨"A", "a", "core", true⟩, ⟨"B", "b", "core", true⟩, ⟨"C", "c", "core", true⟩,
          ⟨"D", "d", "core", true⟩] = .ok "D"
      ∧ ((∃ u ∈ ([⟨"A", "a", "core", true⟩, ⟨"B", "b", "core", true⟩,
            ⟨"C", "c", "core", true⟩, ⟨"D", "d", "core", true⟩] : List User), u.UserID = "D")
          ∧ "D" ≠ "A" ∧ "D" ≠ "B" ∧ "D" ∉ ["B", "C"]) :=
  ⟨by decide, selectNewReviewer_ok (fun _ => 7) ⟨"pr1", "t", "A", "OPEN", ["B", "C"], 0, none⟩
    "B" _ "D" (by decide)⟩

theorem availableCandidates_length_eq_zero (pr : PullRequest) (oldReviewerID : String)
    (candidates : List User) :
    (availableCandidates pr oldReviewerID candidates).length = 0 ↔
      ∀ u ∈ candidates, ¬ (u.UserID ≠ pr.AuthorID ∧ u.UserID ≠ oldReviewerID
        ∧ u.UserID ∉ pr.AssignedReviewers) := by
  rw [availableCandidates_eq, List.length_map, List.length_eq_zero, List.filter_eq_nil_iff]
  simp only [decide_eq_true_eq]

/-- C5: `selectNewReviewer` returns an error exactly when no candidate of the pool
is eligible (differs from the author and from the old reviewer and is not yet
assigned), and returns an id, for every random draw, exactly when some candidate
is eligible; when `ReassignReviewer` reaches the selection with a pool without
eligible candidate it fails with `NO_CANDIDATE`. -/
theorem selectNewReviewer_error_iff (r : Rand) (pr : PullRequest) (oldReviewerID : String)
    (candidates : List User) :
    ((∃ e, selectNewReviewer r pr oldReviewerID candidates = .error e) ↔
        ∀ u ∈ candidates, ¬ (u.UserID ≠ pr.AuthorID ∧ u.UserID ≠ oldReviewerID
          ∧ u.UserID ∉ pr.AssignedReviewers))
      ∧ ((∃ id, selectNewReviewer r pr oldReviewerID candidates = .ok id) ↔
        ∃ u ∈ candidates, u.UserID ≠ pr.AuthorID ∧ u.UserID ≠ oldReviewerID
          ∧ u.UserID ∉ pr.AssignedReviewers)
      ∧ (∀ (sch : Schema) (c c1 c2 c3 : Conn) (prID : String) (oldReviewer : User),
          Repository.GetPullRequest c prID = (.ok pr, c1) → pr.Status ≠ "MERGED" →
          oldReviewerID ∈ pr.AssignedReviewers →
          Repository.GetUser c1 oldReviewerID = (.ok oldReviewer, c2) →
          Repository.GetActiveUsersByTeam c2 oldReviewer.TeamName = (.ok candidates, c3) →
          (∀ u ∈ candidates, ¬ (u.UserID ≠ pr.AuthorID ∧ u.UserID ≠ oldReviewerID
            ∧ u.UserID ∉ pr.AssignedReviewers)) →
          Service.ReassignReviewer sch r c prID oldReviewerID = (.error "NO_CANDIDATE", c3)) := by
  have key := availableCandidates_length_eq_zero pr oldReviewerID candidates
  have herr : (∃ e, selectNewReviewer r pr oldReviewerID candidates = .error e) ↔
      (availableCandidates pr oldReviewerID candidates).length = 0 := by
    unfold selectNewReviewer
    split
    · next h => exact ⟨fun _ => h, fun _ => ⟨_, rfl⟩⟩
    · next h => exact ⟨fun ⟨e, he⟩ => (by cases he), fun h0 => absurd h0 h⟩
  have hok : (∃ id, selectNewReviewer r pr oldReviewerID candidates = .ok id) ↔
      ¬ (availableCandidates pr oldReviewerID candidates).length = 0 := by
    unfold selectNewReviewer
    split
    · next h => exact ⟨fun ⟨e, he⟩ => (by cases he), fun h0 => absurd h h0⟩
    · next h => exact ⟨fun _ => h, fun _ => ⟨_, rfl⟩⟩
  refine ⟨herr.trans key, ?_, ?_⟩
  · rw [hok, key]
    push_neg
    rfl
  · intro sch c c1 c2 c3 prID oldReviewer hget hst hmem huser hteam hnone
    obtain ⟨e, he⟩ := herr.mpr (key.mpr hnone)
    have hcur : ¬ (isCurrentReviewer pr oldReviewerID = false) := by
      rw [isCurrentReviewer_eq_false]; exact fun h => h hmem
    simp [Service.ReassignReviewer, hget, hst, hcur, huser, hteam, he]

theorem selectNewReviewer_error_iff_witness :
    Service.ReassignReviewer Schema.keyed (fun _ => 0)
        ⟨⟨[⟨"t1", "core"⟩],
            [⟨"A", "a", "t1", true⟩, ⟨"B", "b", "t1", true⟩, ⟨"C", "c", "t1", true⟩],
            [⟨"pr1", "t", "A", "OPEN", 0, none⟩], [⟨"pr1", "B"⟩, ⟨"pr1", "C"⟩]⟩, []⟩ "pr1" "B"
      = (.error "NO_CANDIDATE",
        ⟨⟨[⟨"t1", "core"⟩],
            [⟨"A", "a", "t1", true⟩, ⟨"B", "b", "t1", true⟩, ⟨"C", "c", "t1", true⟩],
            [⟨"pr1", "t", "A", "OPEN", 0, none⟩], [⟨"pr1", "B"⟩, ⟨"pr1", "C"⟩]⟩, []⟩) :=
  (selectNewReviewer_error_iff (fun _ => 0) ⟨"pr1", "t", "A", "OPEN", ["B", "C"], 0, none⟩ "B"
    [⟨"A", "a", "core", true⟩, ⟨"B", "b", "core", true⟩, ⟨"C", "c", "core", true⟩]).2.2
    Schema.keyed _ _ _ _ "pr1" ⟨"B", "b", "core", true⟩ rfl (by decide) (by decide) rfl rfl
    (by decide)

/-! ## Lemmas on the repository -/

theorem roundTrip_nil (db : Store) : Conn.roundTrip ⟨db, []⟩ = (none, ⟨db, []⟩) := rfl

theorem updateStatusRow_id (prID status : String) (mergedAt : Option Nat)
    (row : PullRequestRow) : (Repository.updateStatusRow prID status mergedAt row).id = row.id := by
  unfold Repository.updateStatusRow
  split
  · split <;> rfl
  · rfl

theorem find_updateStatusRow (prID status : String) (mergedAt : Option Nat) :
    ∀ rows : List PullRequestRow,
      (rows.map (Repository.updateStatusRow prID status mergedAt)).find?
          (fun row => decide (row.id = prID))
        = (rows.find? (fun row => decide (row.id = prID))).map
            (Repository.updateStatusRow prID status mergedAt) := by
  intro rows
  induction rows with
  | nil => rfl
  | cons x xs ih =>
    simp only [List.map_cons, List.find?_cons, updateStatusRow_id]
    split
    · rfl
    · exact ih

theorem query_nil (db : Store) : Conn.query ⟨db, []⟩ = (.ok none, ⟨db, []⟩) := rfl

theorem GetPullRequest_nil (db : Store) (prID : String) :
    Repository.GetPullRequest ⟨db, []⟩ prID
      = match db.pull_requests.find? (fun row => decide (row.id = prID)) with
        | none => (.error "pull request not found", ⟨db, []⟩)
        | some row =>
          (.ok ⟨row.id, row.title, row.author_id, row.status, reviewersOf db prID,
              row.created_at, row.merged_at⟩, ⟨db, []⟩) := by
  unfold Repository.GetPullRequest
  simp only [roundTrip_nil, query_nil, readRows]

/-! ## Merge -/

/-- C6: on a responsive store holding a pull request with id `prID`, the first
`MergePullRequest` succeeds with a `MERGED` pull request and the second call,
whatever its clock `now2`, succeeds with the very same pull request (same status
and `MergedAt`) and leaves the tables exactly as the first call left them; the
timestamp is `now1` when the first call found the request unmerged, and the
stored one (tables untouched) when it was merged already. -/
theorem MergePullRequest_idempotent (db : Store) (prID : String) (now1 now2 : Nat)
    (h : ∃ row ∈ db.pull_requests, row.id = prID) :
    ∃ pr db1,
      Service.MergePullRequest now1 ⟨db, []⟩ prID = (.ok pr, ⟨db1, []⟩)
        ∧ Service.MergePullRequest now2 ⟨db1, []⟩ prID = (.ok pr, ⟨db1, []⟩)
        ∧ pr.Status = "MERGED"
        ∧ (∀ row, db.pull_requests.find? (fun x => decide (x.id = prID)) = some row →
            (row.status = "MERGED" → db1 = db ∧ pr.MergedAt = row.merged_at)
              ∧ (row.status ≠ "MERGED" → pr.MergedAt = some now1)) := by
  obtain ⟨row0, hmem, hid⟩ := h
  have hsome : (db.pull_requests.find? (fun x => decide (x.id = prID))).isSome := by
    rw [List.find?_isSome]
    exact ⟨row0, hmem, by simp [hid]⟩
  obtain ⟨row, hrow⟩ := Option.isSome_iff_exists.mp hsome
  have hrid : row.id = prID := by
    have := List.find?_some hrow
    simpa using this
  by_cases hst : row.status = "MERGED"
  · refine ⟨⟨row.id, row.title, row.author_id, row.status, reviewersOf db prID,
        row.created_at, row.merged_at⟩, db, ?_, ?_, hst, ?_⟩
    · simp [Service.MergePullRequest, GetPullRequest_nil, hrow, hst]
    · simp [Service.MergePullRequest, GetPullRequest_nil, hrow, hst]
    · intro row1 h1
      rw [hrow] at h1
      cases h1
      exact ⟨fun _ => ⟨rfl, rfl⟩, fun hne => absurd hst hne⟩
  · have hfind := find_updateStatusRow prID "MERGED" (some now1) db.pull_requests
    rw [hrow] at hfind
    have hupd : Repository.updateStatusRow prID "MERGED" (some now1) row
        = ⟨row.id, row.title, row.author_id, "MERGED", row.created_at, some now1⟩ := by
      simp [Repository.updateStatusRow, hrid]
    simp only [Option.map_some', hupd] at hfind
    refine ⟨⟨row.id, row.title, row.author_id, "MERGED", reviewersOf db prID,
        row.created_at, some now1⟩,
      ⟨db.teams, db.users,
        db.pull_requests.map (Repository.updateStatusRow prID "MERGED" (some now1)),
        db.pr_reviewers⟩, ?_, ?_, rfl, ?_⟩
    · simp [Service.MergePullRequest, Repository.UpdatePullRequestStatus, GetPullRequest_nil,
        hrow, hst, hfind, roundTrip_nil, reviewersOf]
    · simp [Service.MergePullRequest, GetPullRequest_nil, hfind, reviewersOf]
    · intro row1 h1
      rw [hrow] at h1
      cases h1
      exact ⟨fun he => absurd he hst, fun _ => rfl⟩

theorem MergePullRequest_idempotent_witness :
    (∃ row ∈ [(⟨"pr1", "t", "A", "OPEN", 11, none⟩ : PullRequestRow)], row.id = "pr1")
      ∧ ∃ pr db1,
        Service.MergePullRequest 20
            ⟨⟨[⟨"t1", "core"⟩], [⟨"A", "a", "t1", true⟩, ⟨"B", "b", "t1", true⟩],
              [⟨"pr1", "t", "A", "OPEN", 11, none⟩], [⟨"pr1", "B"⟩]⟩, []⟩ "pr1"
          = (.ok pr, ⟨db1, []⟩)
        ∧ Service.MergePullRequest 30 ⟨db1, []⟩ "pr1" = (.ok pr, ⟨db1, []⟩)
        ∧ pr.Status = "MERGED"
        ∧ (∀ row, [(⟨"pr1", "t", "A", "OPEN", 11, none⟩ : PullRequestRow)].find?
              (fun x => decide (x.id = "pr1")) = some row →
            (row.status = "MERGED" →
                db1 = ⟨[⟨"t1", "core"⟩], [⟨"A", "a", "t1", true⟩, ⟨"B", "b", "t1", true⟩],
                  [⟨"pr1", "t", "A", "OPEN", 11, none⟩], [⟨"pr1", "B"⟩]⟩
                  ∧ pr.MergedAt = row.merged_at)
              ∧ (row.status ≠ "MERGED" → pr.MergedAt = some 20)) :=
  ⟨⟨_, List.mem_singleton.mpr rfl, rfl⟩,
    MergePullRequest_idempotent
      ⟨[⟨"t1", "core"⟩], [⟨"A", "a", "t1", true⟩, ⟨"B", "b", "t1", true⟩],
        [⟨"pr1", "t", "A", "OPEN", 11, none⟩], [⟨"pr1", "B"⟩]⟩ "pr1" 20 30
      ⟨_, List.mem_singleton.mpr rfl, rfl⟩⟩

/-! ## Reassignment -/

/-- C7: when the row of `prID` has status `MERGED`, `ReassignReviewer` fails with
`PR_MERGED` for every old reviewer id, user table, schema and random draw, and
the connection it leaves holds the same tables: nothing is written. -/
theorem ReassignReviewer_merged (sch : Schema) (r : Rand) (db : Store)
    (prID oldReviewerID : String) (row : PullRequestRow)
    (hrow : db.pull_requests.find? (fun x => decide (x.id = prID)) = some row)
    (hst : row.status = "MERGED") :
    Service.ReassignReviewer sch r ⟨db, []⟩ prID oldReviewerID
      = (.error "PR_MERGED", ⟨db, []⟩) := by
  simp [Service.ReassignReviewer, GetPullRequest_nil, hrow, hst]

theorem ReassignReviewer_merged_witness :
    Service.ReassignReviewer Schema.keyed (fun _ => 0)
        ⟨⟨[⟨"t1", "core"⟩],
            [⟨"A", "a", "t1", true⟩, ⟨"B", "b", "t1", true⟩, ⟨"C", "c", "t1", true⟩],
            [⟨"pr1", "t", "A", "MERGED", 11, some 20⟩], [⟨"pr1", "B"⟩]⟩, []⟩ "pr1" "B"
      = (.error "PR_MERGED",
        ⟨⟨[⟨"t1", "core"⟩],
            [⟨"A", "a", "t1", true⟩, ⟨"B", "b", "t1", true⟩, ⟨"C", "c", "t1", true⟩],
            [⟨"pr1", "t", "A", "MERGED", 11, some 20⟩], [⟨"pr1", "B"⟩]⟩, []⟩) :=
  ReassignReviewer_merged Schema.keyed (fun _ => 0) _ "pr1" "B"
    ⟨"pr1", "t", "A", "MERGED", 11, some 20⟩ rfl rfl

theorem roundTrip_db (c : Conn) : c.roundTrip.2.db = c.db := by
  unfold Conn.roundTrip
  split <;> rfl

theorem roundTrip_db_of_eq {c c1 : Conn} {o : Option String} (h : c.roundTrip = (o, c1)) :
    c1.db = c.db := by
  have := roundTrip_db c
  rw [h] at this
  exact this

theorem query_db (c : Conn) : c.query.2.db = c.db := by
  unfold Conn.query
  split <;> rfl

theorem query_db_of_eq {c c1 : Conn} {o : Except String (Option Nat)}
    (h : c.query = (o, c1)) : c1.db = c.db := by
  have := query_db c
  rw [h] at this
  exact this

theorem GetPullRequest_db (c : Conn) (prID : String) :
    (Repository.GetPullRequest c prID).2.db = c.db := by
  unfold Repository.GetPullRequest
  split
  · next h => exact roundTrip_db_of_eq h
  · next c1 h =>
    split
    · exact roundTrip_db_of_eq h
    · split
      · next h2 => exact (query_db_of_eq h2).trans (roundTrip_db_of_eq h)
      · next h2 => exact (query_db_of_eq h2).trans (roundTrip_db_of_eq h)

theorem GetPullRequest_ok {c c1 : Conn} {prID : String} {pr : PullRequest}
    (h : Repository.GetPullRequest c prID = (.ok pr, c1)) :
    c1.db = c.db ∧ ∃ row, c.db.pull_requests.find? (fun x => decide (x.id = prID)) = some row
      ∧ ∃ delivered, pr = ⟨row.id, row.title, row.author_id, row.status,
          readRows delivered (reviewersOf c.db prID), row.created_at, row.merged_at⟩ := by
  have hdb := GetPullRequest_db c prID
  rw [h] at hdb
  refine ⟨hdb, ?_⟩
  unfold Repository.GetPullRequest at h
  split at h
  · cases h
  · next c2 h1 =>
    have e1 := roundTrip_db_of_eq h1
    split at h
    · cases h
    · next row hrow =>
      split at h
      · cases h
      · next delivered c3 h2 =>
        have e2 := query_db_of_eq h2
        rw [e1] at hrow
        refine ⟨row, hrow, delivered, ?_⟩
        simp only [Prod.mk.injEq, Except.ok.injEq] at h
        rw [← h.1, e2, e1]

theorem GetUser_db (c : Conn) (userID : String) :
    (Repository.GetUser c userID).2.db = c.db := by
  unfold Repository.GetUser
  split
  · next h => exact roundTrip_db_of_eq h
  · next c1 h => split <;> exact roundTrip_db_of_eq h

theorem GetActiveUsersByTeam_db (c : Conn) (teamName : String) :
    (Repository.GetActiveUsersByTeam c teamName).2.db = c.db := by
  unfold Repository.GetActiveUsersByTeam
  split
  · next h => exact query_db_of_eq h
  · next h => exact query_db_of_eq h

theorem db_of_eq {α : Type} {f : Except String α × Conn} {x : Except String α} {c1 c : Conn}
    (h : f = (x, c1)) (hf : f.2.db = c.db) : c1.db = c.db := by
  rw [h] at hf
  exact hf

/-- What `Repository.ReassignReviewer` does to the tables: nothing on an error,
and on success the rows `(prID, old)` are gone and one row `(prID, new)` is appended. -/
theorem Repository_ReassignReviewer_db (sch : Schema) (c : Conn)
    (prID oldReviewerID newReviewerID : String) :
    (∀ e c1, Repository.ReassignReviewer sch c prID oldReviewerID newReviewerID = (.error e, c1) →
        c1.db = c.db)
      ∧ (∀ u c1, Repository.ReassignReviewer sch c prID oldReviewerID newReviewerID = (.ok u, c1) →
        c1.db = ⟨c.db.teams, c.db.users, c.db.pull_requests,
          (Repository.deleteReviewer c.db prID oldReviewerID).pr_reviewers
            ++ [⟨prID, newReviewerID⟩]⟩) := by
  unfold Repository.ReassignReviewer
  constructor
  · intro e c1 h
    split at h
    · next h1 => cases h; exact roundTrip_db_of_eq h1
    · next c2 h1 =>
      have e1 := roundTrip_db_of_eq h1
      split at h
      · next h2 => cases h; exact (roundTrip_db_of_eq h2).trans e1
      · next c3 h2 =>
        have e2 := (roundTrip_db_of_eq h2).trans e1
        split at h
        · next h3 => cases h; exact (roundTrip_db_of_eq h3).trans e2
        · next c4 h3 =>
          have e3 := (roundTrip_db_of_eq h3).trans e2
          split at h
          · cases h; exact e3
          · split at h
            · next h4 => cases h; exact (roundTrip_db_of_eq h4).trans e3
            · cases h
  · intro u c1 h
    split at h
    · cases h
    · next c2 h1 =>
      have e1 := roundTrip_db_of_eq h1
      split at h
      · cases h
      · next c3 h2 =>
        have e2 := (roundTrip_db_of_eq h2).trans e1
        split at h
        · cases h
        · next c4 h3 =>
          have e3 := (roundTrip_db_of_eq h3).trans e2
          split at h
          · cases h
          · split at h
            · cases h
            · next c5 h4 =>
              have e4 := (roundTrip_db_of_eq h4).trans e3
              cases h
              simp only [e4]

theorem reviewersOf_reassign_other (db : Store) (prID old new other : String)
    (h : other ≠ prID) :
    reviewersOf ⟨db.teams, db.users, db.pull_requests,
        (Repository.deleteReviewer db prID old).pr_reviewers ++ [⟨prID, new⟩]⟩ other
      = reviewersOf db other := by
  simp only [reviewersOf, Repository.deleteReviewer, List.filter_append, List.map_append,
    List.filter_filter]
  have h1 : ([(⟨prID, new⟩ : ReviewerRow)].filter (fun row => decide (row.pr_id = other))) = [] := by
    simp [List.filter_cons, Ne.symm h]
  rw [h1, List.map_nil, List.append_nil]
  congr 1
  apply List.filter_congr
  intro row _
  by_cases h2 : row.pr_id = other
  · have h3 : ¬ other = prID := h
    simp [h2, h3]
  · simp [h2]

theorem insertReviewers_db (sch : Schema) (prID : String) :
    ∀ (ids : List String) (db : Store) (c : Conn),
      (Repository.insertReviewers sch prID ids db c).2.db = c.db
        ∧ ∀ db1 c1, Repository.insertReviewers sch prID ids db c = (.ok db1, c1) →
            db1 = ⟨db.teams, db.users, db.pull_requests,
              db.pr_reviewers ++ ids.map (fun id => ⟨prID, id⟩)⟩ := by
  intro ids
  induction ids with
  | nil =>
    intro db c
    refine ⟨rfl, ?_⟩
    intro db1 c1 h
    simp only [Repository.insertReviewers, Prod.mk.injEq, Except.ok.injEq] at h
    rw [← h.1]
    simp
  | cons id rest ih =>
    intro db c
    simp only [Repository.insertReviewers]
    split
    · next h1 => exact ⟨roundTrip_db_of_eq h1, fun _ _ h => by cases h⟩
    · next c2 h1 =>
      have e1 := roundTrip_db_of_eq h1
      split
      · exact ⟨e1, fun _ _ h => by cases h⟩
      · obtain ⟨ih1, ih2⟩ := ih
          ⟨db.teams, db.users, db.pull_requests, db.pr_reviewers ++ [⟨prID, id⟩]⟩ c2
        refine ⟨ih1.trans e1, ?_⟩
        intro db1 c1 h
        rw [ih2 db1 c1 h]
        simp

theorem PRExists_db (c : Conn) (prID : String) :
    (Repository.PRExists c prID).2.db = c.db := by
  unfold Repository.PRExists
  split
  · next h => exact roundTrip_db_of_eq h
  · next h => exact roundTrip_db_of_eq h

/-- What `Repository.CreatePullRequest` does to the tables: nothing on an error,
one pull request row and one reviewer row per listed id on success. -/
theorem Repository_CreatePullRequest_db (sch : Schema) (dbNow : Nat) (c : Conn)
    (pr : PullRequest) :
    (∀ e c1, Repository.CreatePullRequest sch dbNow c pr = (.error e, c1) → c1.db = c.db)
      ∧ (∀ u c1, Repository.CreatePullRequest sch dbNow c pr = (.ok u, c1) →
        c1.db = ⟨c.db.teams, c.db.users,
          c.db.pull_requests ++
            [⟨pr.PullRequestID, pr.PullRequestName, pr.AuthorID, pr.Status, dbNow, none⟩],
          c.db.pr_reviewers ++ pr.AssignedReviewers.map (fun id => ⟨pr.PullRequestID, id⟩)⟩) := by
  unfold Repository.CreatePullRequest
  constructor
  · intro e c1 h
    split at h
    · next h1 => cases h; exact roundTrip_db_of_eq h1
    · next c2 h1 =>
      have e1 := roundTrip_db_of_eq h1
      split at h
      · next h2 => cases h; exact (roundTrip_db_of_eq h2).trans e1
      · next c3 h2 =>
        have e2 := (roundTrip_db_of_eq h2).trans e1
        split at h
        · cases h; exact e2
        · split at h
          · next h3 =>
            cases h
            exact (db_of_eq h3 (insertReviewers_db sch _ _ _ _).1).trans e2
          · next db1 c4 h3 =>
            have e3 := (db_of_eq h3 (insertReviewers_db sch _ _ _ _).1).trans e2
            split at h
            · next h4 => cases h; exact (roundTrip_db_of_eq h4).trans e3
            · cases h
  · intro u c1 h
    split at h
    · cases h
    · next c2 h1 =>
      have e1 := roundTrip_db_of_eq h1
      split at h
      · cases h
      · next c3 h2 =>
        have e2 := (roundTrip_db_of_eq h2).trans e1
        split at h
        · cases h
        · split at h
          · cases h
          · next db1 c4 h3 =>
            have e3 := (insertReviewers_db sch _ _ _ _).2 _ _ h3
            split at h
            · cases h
            · cases h
              simp only [e3, e2]

/-- What `Repository.AssignReviewers` does to the tables: nothing on an error,
one reviewer row per listed id on success. -/
theorem Repository_AssignReviewers_db (sch : Schema) (c : Conn) (prID : String)
    (ids : List String) :
    (∀ e c1, Repository.AssignReviewers sch c prID ids = (.error e, c1) → c1.db = c.db)
      ∧ (∀ u c1, Repository.AssignReviewers sch c prID ids = (.ok u, c1) →
        c1.db = ⟨c.db.teams, c.db.users, c.db.pull_requests,
          c.db.pr_reviewers ++ ids.map (fun id => ⟨prID, id⟩)⟩) := by
  unfold Repository.AssignReviewers
  constructor
  · intro e c1 h
    split at h
    · next h1 => cases h; exact roundTrip_db_of_eq h1
    · next c2 h1 =>
      have e1 := roundTrip_db_of_eq h1
      split at h
      · next h3 =>
        cases h
        exact (db_of_eq h3 (insertReviewers_db sch _ _ _ _).1).trans e1
      · next db1 c4 h3 =>
        have e3 := (db_of_eq h3 (insertReviewers_db sch _ _ _ _).1).trans e1
        split at h
        · next h4 => cases h; exact (roundTrip_db_of_eq h4).trans e3
        · cases h
  · intro u c1 h
    split at h
    · cases h
    · next c2 h1 =>
      have e1 := roundTrip_db_of_eq h1
      split at h
      · cases h
      · next db1 c4 h3 =>
        have e3 := (insertReviewers_db sch _ _ _ _).2 _ _ h3
        split at h
        · cases h
        · cases h
          simp only [e3, e1]

/-- The tables after a successful `Service.CreatePullRequest`, for every schema,
random stream and connection: one new pull request row, `OPEN`, and the
reviewer rows of the returned list written twice, first by
`Repository.CreatePullRequest` and again by `Repository.AssignReviewers`. -/
theorem CreatePullRequest_ok_rows {sch : Schema} {r : Rand} {now dbNow : Nat} {c c' : Conn}
    {prID title authorID : String} {pr : PullRequest}
    (h : Service.CreatePullRequest sch r now dbNow c prID title authorID = (.ok pr, c')) :
    pr.PullRequestID = prID ∧ pr.PullRequestName = title ∧ pr.AuthorID = authorID
      ∧ pr.Status = "OPEN"
      ∧ c'.db = ⟨c.db.teams, c.db.users,
          c.db.pull_requests ++ [⟨prID, title, authorID, "OPEN", dbNow, none⟩],
          c.db.pr_reviewers ++ pr.AssignedReviewers.map (fun id => ⟨prID, id⟩)
            ++ pr.AssignedReviewers.map (fun id => ⟨prID, id⟩)⟩ := by
  unfold Service.CreatePullRequest at h
  split at h
  · cases h
  · cases h
  · next c1 h1 =>
    have e1 : c1.db = c.db := db_of_eq h1 (PRExists_db _ _)
    split at h
    · cases h
    · next author c2 h2 =>
      have e2 := (db_of_eq h2 (GetUser_db _ _)).trans e1
      split at h
      · cases h
      · next teamUsers c3 h3 =>
        have e3 := (db_of_eq h3 (GetActiveUsersByTeam_db _ _)).trans e2
        split at h
        · cases h
        · next u c4 h4 =>
          have e4 := (Repository_CreatePullRequest_db sch dbNow c3 _).2 _ _ h4
          split at h
          · split at h
            · cases h
            · next u5 c5 h5 =>
              have e5 := (Repository_AssignReviewers_db sch c4 prID _).2 _ _ h5
              cases h
              refine ⟨rfl, rfl, rfl, rfl, ?_⟩
              rw [e5, e4]
              simp only [e3]
          · next hlen =>
            cases h
            refine ⟨rfl, rfl, rfl, rfl, ?_⟩
            have hnil : autoAssignReviewers r authorID teamUsers = [] := by
              rw [← List.length_eq_zero]; omega
            rw [e4]
            simp only [e3, hnil, List.map_nil, List.append_nil]

/-- C10, the code at the failing input: team `core` holds A and B, both active,
and no pull request exists; A creates `pr1`. Without a uniqueness constraint on
`pr_reviewers` the call succeeds and returns the reviewers `["B"]`, yet the row
`(pr1, B)` is stored twice and reading the pull request back gives `["B", "B"]`.
With a primary key on `(pr_id, user_id)` the second insert is rejected: the call
returns an error although the pull request and its reviewer row are committed. -/
theorem CreatePullRequest_records_twice :
    (Service.CreatePullRequest Schema.free (fun _ => 0) 10 11
        ⟨⟨[⟨"t1", "core"⟩], [⟨"A", "a", "t1", true⟩, ⟨"B", "b", "t1", true⟩], [], []⟩, []⟩
        "pr1" "t" "A"
      = (.ok ⟨"pr1", "t", "A", "OPEN", ["B"], 10, none⟩,
        ⟨⟨[⟨"t1", "core"⟩], [⟨"A", "a", "t1", true⟩, ⟨"B", "b", "t1", true⟩],
          [⟨"pr1", "t", "A", "OPEN", 11, none⟩], [⟨"pr1", "B"⟩, ⟨"pr1", "B"⟩]⟩, []⟩))
      ∧ (Repository.GetPullRequest
          ⟨⟨[⟨"t1", "core"⟩], [⟨"A", "a", "t1", true⟩, ⟨"B", "b", "t1", true⟩],
            [⟨"pr1", "t", "A", "OPEN", 11, none⟩], [⟨"pr1", "B"⟩, ⟨"pr1", "B"⟩]⟩, []⟩ "pr1").1
        = .ok ⟨"pr1", "t", "A", "OPEN", ["B", "B"], 11, none⟩
      ∧ (Service.CreatePullRequest Schema.keyed (fun _ => 0) 10 11
        ⟨⟨[⟨"t1", "core"⟩], [⟨"A", "a", "t1", true⟩, ⟨"B", "b", "t1", true⟩], [], []⟩, []⟩
        "pr1" "t" "A"
      = (.error "assign reviewer B: duplicate key",
        ⟨⟨[⟨"t1", "core"⟩], [⟨"A", "a", "t1", true⟩, ⟨"B", "b", "t1", true⟩],
          [⟨"pr1", "t", "A", "OPEN", 11, none⟩], [⟨"pr1", "B"⟩]⟩, []⟩)) :=
  ⟨rfl, rfl, rfl⟩

/-! ## Effects of the service operations on the tables -/

theorem autoAssignReviewers_ne_author (r : Rand) (authorID : String) (teamUsers : List User) :
    ∀ id ∈ autoAssignReviewers r authorID teamUsers, id ≠ authorID := by
  intro id h
  obtain ⟨l, hp, he⟩ := autoAssignReviewers_perm_take r authorID teamUsers
  rw [he] at h
  have h1 : id ∈ autoAssignCandidates authorID teamUsers := hp.subset (List.mem_of_mem_take h)
  rw [autoAssignCandidates_eq] at h1
  simp only [List.mem_map, List.mem_filter, decide_eq_true_eq] at h1
  obtain ⟨u, ⟨_, hne, _⟩, rfl⟩ := h1
  exact hne

theorem PRExists_ok {c c1 : Conn} {prID : String} {b : Bool}
    (h : Repository.PRExists c prID = (.ok b, c1)) :
    b = c.db.pull_requests.any (fun row => decide (row.id = prID)) := by
  unfold Repository.PRExists at h
  split at h
  · cases h
  · next c2 h1 =>
    have e1 := roundTrip_db_of_eq h1
    cases h
    rw [e1]

theorem CreatePullRequest_effect (sch : Schema) (r : Rand) (now dbNow : Nat) (c : Conn)
    (prID title authorID : String) :
    CreateEffect c.db (Service.CreatePullRequest sch r now dbNow c prID title authorID).2.db
      dbNow prID title authorID := by
  unfold Service.CreatePullRequest
  split
  · next h1 => exact Or.inl (db_of_eq h1 (PRExists_db _ _))
  · next h1 => exact Or.inl (db_of_eq h1 (PRExists_db _ _))
  · next c1 h1 =>
    have e1 : c1.db = c.db := db_of_eq h1 (PRExists_db _ _)
    have hex := PRExists_ok h1
    split
    · next h2 => exact Or.inl ((db_of_eq h2 (GetUser_db _ _)).trans e1)
    · next author c2 h2 =>
      have e2 := (db_of_eq h2 (GetUser_db _ _)).trans e1
      split
      · next h3 => exact Or.inl ((db_of_eq h3 (GetActiveUsersByTeam_db _ _)).trans e2)
      · next teamUsers c3 h3 =>
        have e3 := (db_of_eq h3 (GetActiveUsersByTeam_db _ _)).trans e2
        have hne := autoAssignReviewers_ne_author r authorID teamUsers
        split
        · next e c4 h4 =>
          exact Or.inl (((Repository_CreatePullRequest_db sch dbNow c3 _).1 _ _ h4).trans e3)
        · next u c4 h4 =>
          have e4 := (Repository_CreatePullRequest_db sch dbNow c3 _).2 _ _ h4
          simp only [e3] at e4
          split
          · split
            · next e c5 h5 =>
              have e5 := (Repository_AssignReviewers_db sch c4 prID _).1 _ _ h5
              refine Or.inr ⟨hex.symm, autoAssignReviewers r authorID teamUsers, hne, ?_⟩
              exact e5.trans e4
            · next u5 c5 h5 =>
              have e5 := (Repository_AssignReviewers_db sch c4 prID _).2 _ _ h5
              refine Or.inr ⟨hex.symm,
                autoAssignReviewers r authorID teamUsers
                  ++ autoAssignReviewers r authorID teamUsers, ?_, ?_⟩
              · intro id hid
                rcases List.mem_append.mp hid with h | h <;> exact hne id h
              · rw [e5, e4]
                simp
          · refine Or.inr ⟨hex.symm, autoAssignReviewers r authorID teamUsers, hne, ?_⟩
            exact e4

theorem UpdatePullRequestStatus_db (c : Conn) (prID status : String) (mergedAt : Option Nat) :
    (Repository.UpdatePullRequestStatus c prID status mergedAt).2.db = c.db
      ∨ (Repository.UpdatePullRequestStatus c prID status mergedAt).2.db
        = ⟨c.db.teams, c.db.users,
            c.db.pull_requests.map (Repository.updateStatusRow prID status mergedAt),
            c.db.pr_reviewers⟩ := by
  unfold Repository.UpdatePullRequestStatus
  split
  · next h1 => exact Or.inl (roundTrip_db_of_eq h1)
  · next c1 h1 =>
    have e1 := roundTrip_db_of_eq h1
    split
    · next h2 => exact Or.inl ((roundTrip_db_of_eq h2).trans e1)
    · next c2 h2 =>
      have e2 := (roundTrip_db_of_eq h2).trans e1
      split
      · next h3 => exact Or.inl ((roundTrip_db_of_eq h3).trans e2)
      · next c3 h3 =>
        have e3 := (roundTrip_db_of_eq h3).trans e2
        right
        rw [GetPullRequest_db]
        simp only [e3]

theorem MergePullRequest_effect (now : Nat) (c : Conn) (prID : String) :
    MergeEffect c.db (Service.MergePullRequest now c prID).2.db now prID := by
  unfold Service.MergePullRequest
  split
  · next h1 => exact Or.inl (db_of_eq h1 (GetPullRequest_db _ _))
  · next pr c1 h1 =>
    obtain ⟨e1, row, hrow, _, hpr⟩ := GetPullRequest_ok h1
    split
    · exact Or.inl e1
    · next hst =>
      rcases UpdatePullRequestStatus_db c1 prID "MERGED" (some now) with h | h
      · exact Or.inl (h.trans e1)
      · refine Or.inr ⟨row, hrow, ?_, ?_⟩
        · rw [hpr] at hst; exact hst
        · rw [h, e1]

theorem ReassignReviewer_effect (sch : Schema) (r : Rand) (c : Conn)
    (prID oldReviewerID : String) :
    ReassignEffect c.db (Service.ReassignReviewer sch r c prID oldReviewerID).2.db
      prID oldReviewerID := by
  unfold Service.ReassignReviewer
  split
  · next h1 => exact Or.inl (db_of_eq h1 (GetPullRequest_db _ _))
  · next pr c1 h1 =>
    obtain ⟨e1, row, hrow, _, hpr⟩ := GetPullRequest_ok h1
    split
    · exact Or.inl e1
    · next hst =>
      split
      · exact Or.inl e1
      · split
        · next h2 => exact Or.inl ((db_of_eq h2 (GetUser_db _ _)).trans e1)
        · next oldReviewer c2 h2 =>
          have e2 := (db_of_eq h2 (GetUser_db _ _)).trans e1
          split
          · next h3 => exact Or.inl ((db_of_eq h3 (GetActiveUsersByTeam_db _ _)).trans e2)
          · next candidates c3 h3 =>
            have e3 := (db_of_eq h3 (GetActiveUsersByTeam_db _ _)).trans e2
            split
            · exact Or.inl e3
            · next newReviewerID h4 =>
              have hav := (mem_availableCandidates pr oldReviewerID candidates _).mp
                (selectNewReviewer_mem_available h4)
              have hshape : ∀ c5 : Conn, c5.db = ⟨c3.db.teams, c3.db.users, c3.db.pull_requests,
                    (Repository.deleteReviewer c3.db prID oldReviewerID).pr_reviewers
                      ++ [⟨prID, newReviewerID⟩]⟩ →
                  ReassignEffect c.db c5.db prID oldReviewerID := by
                intro c5 h5
                refine Or.inr ⟨row, newReviewerID, hrow, ?_, ?_, ?_⟩
                · rw [hpr] at hst; exact hst
                · have := hav.2.1; rw [hpr] at this; exact this
                · rw [h5, e3]
              split
              · next e4 c4 h5 =>
                exact Or.inl (((Repository_ReassignReviewer_db sch c3 prID oldReviewerID
                  newReviewerID).1 _ _ h5).trans e3)
              · next u c4 h5 =>
                have e4 := (Repository_ReassignReviewer_db sch c3 prID oldReviewerID
                  newReviewerID).2 _ _ h5
                split
                · next h6 =>
                  exact hshape _ ((db_of_eq h6 (GetPullRequest_db _ _)).trans e4)
                · next h6 =>
                  exact hshape _ ((db_of_eq h6 (GetPullRequest_db _ _)).trans e4)

theorem TeamExists_db (c : Conn) (teamName : String) :
    (Repository.TeamExists c teamName).2.db = c.db := by
  unfold Repository.TeamExists
  split
  · next h => exact roundTrip_db_of_eq h
  · next h => exact roundTrip_db_of_eq h

theorem upsertMembers_db (tsch : TeamSchema) (teamID : String) :
    ∀ (members : List User) (db : Store) (c : Conn),
      (Repository.upsertMembers tsch teamID members db c).2.db = c.db
        ∧ ∀ db1 c1, Repository.upsertMembers tsch teamID members db c = (.ok db1, c1) →
            db1.pull_requests = db.pull_requests ∧ db1.pr_reviewers = db.pr_reviewers := by
  intro members
  induction members with
  | nil =>
    intro db c
    refine ⟨rfl, ?_⟩
    intro db1 c1 h
    simp only [Repository.upsertMembers, Prod.mk.injEq, Except.ok.injEq] at h
    rw [← h.1]
    exact ⟨rfl, rfl⟩
  | cons member rest ih =>
    intro db c
    simp only [Repository.upsertMembers]
    split
    · next h1 => exact ⟨roundTrip_db_of_eq h1, fun _ _ h => by cases h⟩
    · next c2 h1 =>
      have e1 := roundTrip_db_of_eq h1
      split
      · split
        · next h2 => exact ⟨(roundTrip_db_of_eq h2).trans e1, fun _ _ h => by cases h⟩
        · next c3 h2 =>
          have e2 := (roundTrip_db_of_eq h2).trans e1
          obtain ⟨ih1, ih2⟩ := ih (Repository.updateUser db teamID member) c3
          exact ⟨ih1.trans e2, fun db1 c1 h => ih2 db1 c1 h⟩
      · split
        · next h2 => exact ⟨(roundTrip_db_of_eq h2).trans e1, fun _ _ h => by cases h⟩
        · next c3 h2 =>
          have e2 := (roundTrip_db_of_eq h2).trans e1
          split
          · exact ⟨e2, fun _ _ h => by cases h⟩
          · obtain ⟨ih1, ih2⟩ := ih
              ⟨db.teams,
                db.users ++ [⟨member.UserID, member.Username, teamID, member.IsActive⟩],
                db.pull_requests, db.pr_reviewers⟩ c3
            exact ⟨ih1.trans e2, fun db1 c1 h => ih2 db1 c1 h⟩

theorem Repository_CreateTeam_db (tsch : TeamSchema) (c : Conn) (team : Team) :
    (Repository.CreateTeam tsch c team).2.db.pull_requests = c.db.pull_requests
      ∧ (Repository.CreateTeam tsch c team).2.db.pr_reviewers = c.db.pr_reviewers := by
  unfold Repository.CreateTeam
  split
  · next h1 => rw [roundTrip_db_of_eq h1]; exact ⟨rfl, rfl⟩
  · next c1 h1 =>
    have e1 := roundTrip_db_of_eq h1
    split
    · next h2 => rw [(roundTrip_db_of_eq h2).trans e1]; exact ⟨rfl, rfl⟩
    · next c2 h2 =>
      have e2 := (roundTrip_db_of_eq h2).trans e1
      split
      · rw [e2]; exact ⟨rfl, rfl⟩
      · next teamID _ =>
        split
        · next h3 =>
          rw [(db_of_eq h3 (upsertMembers_db tsch teamID _ _ _).1).trans e2]
          exact ⟨rfl, rfl⟩
        · next db1 c3 h3 =>
          have e3 := (db_of_eq h3 (upsertMembers_db tsch teamID _ _ _).1).trans e2
          have e4 := (upsertMembers_db tsch teamID _ _ _).2 _ _ h3
          split
          · next h4 => rw [(roundTrip_db_of_eq h4).trans e3]; exact ⟨rfl, rfl⟩
          · simp only [e4, e2, and_self]

theorem CreateTeam_effect (tsch : TeamSchema) (c : Conn) (team : Team) :
    (Service.CreateTeam tsch c team).2.db.pull_requests = c.db.pull_requests
      ∧ (Service.CreateTeam tsch c team).2.db.pr_reviewers = c.db.pr_reviewers := by
  unfold Service.CreateTeam
  split
  · next h1 => rw [db_of_eq h1 (TeamExists_db _ _)]; exact ⟨rfl, rfl⟩
  · next h1 => rw [db_of_eq h1 (TeamExists_db _ _)]; exact ⟨rfl, rfl⟩
  · next c1 h1 =>
    have e1 : c1.db = c.db := db_of_eq h1 (TeamExists_db _ _)
    have h := Repository_CreateTeam_db tsch c1 team
    rw [e1] at h
    split
    · next h2 => rw [h2] at h; exact h
    · next h2 => rw [h2] at h; exact h

theorem SetUserActive_effect (c : Conn) (userID : String) (isActive : Bool) :
    (Service.SetUserActive c userID isActive).2.db.pull_requests = c.db.pull_requests
      ∧ (Service.SetUserActive c userID isActive).2.db.pr_reviewers = c.db.pr_reviewers := by
  have key : (Repository.UpdateUserActive c userID isActive).2.db.pull_requests
        = c.db.pull_requests
      ∧ (Repository.UpdateUserActive c userID isActive).2.db.pr_reviewers
        = c.db.pr_reviewers := by
    unfold Repository.UpdateUserActive
    split
    · next h1 => rw [roundTrip_db_of_eq h1]; exact ⟨rfl, rfl⟩
    · next c1 h1 =>
      rw [GetUser_db]
      simp only [roundTrip_db_of_eq h1, and_self]
  unfold Service.SetUserActive
  split
  · next h1 => rw [h1] at key; exact key
  · next h1 => rw [h1] at key; exact key

/-! ## The invariant -/

theorem inv_empty : Inv Store.empty := by
  refine ⟨?_, ?_, ?_⟩ <;> intro x hx <;> cases hx

theorem inv_of_tables_eq {db db' : Store} (h1 : db'.pull_requests = db.pull_requests)
    (h2 : db'.pr_reviewers = db.pr_reviewers) (h : Inv db) : Inv db' := by
  unfold Inv
  rw [h1, h2]
  exact h

theorem not_exists_of_any_false {db : Store} {prID : String}
    (h : db.pull_requests.any (fun row => decide (row.id = prID)) = false) :
    ∀ row ∈ db.pull_requests, row.id ≠ prID := by
  intro row hrow heq
  rw [List.any_eq_false] at h
  exact h row hrow (by simp [heq])

theorem inv_create {db db' : Store} {dbNow : Nat} {prID title authorID : String}
    (he : CreateEffect db db' dbNow prID title authorID) (h : Inv db) : Inv db' := by
  rcases he with rfl | ⟨hex, ids, hids, rfl⟩
  · exact h
  · obtain ⟨i1, i2, i3⟩ := h
    have hno := not_exists_of_any_false hex
    refine ⟨?_, ?_, ?_⟩
    · intro rr hrr
      simp only [List.mem_append, List.mem_map, List.mem_singleton] at hrr ⊢
      rcases hrr with hrr | ⟨id, _, rfl⟩
      · obtain ⟨row, hrow, hid⟩ := i1 rr hrr
        exact ⟨row, Or.inl hrow, hid⟩
      · exact ⟨_, Or.inr rfl, rfl⟩
    · intro r1 h1 r2 h2 heq
      simp only [List.mem_append, List.mem_singleton] at h1 h2
      rcases h1 with h1 | rfl <;> rcases h2 with h2 | rfl
      · exact i2 r1 h1 r2 h2 heq
      · exact absurd heq (hno r1 h1)
      · exact absurd heq.symm (hno r2 h2)
      · rfl
    · intro rr hrr row hrow heq
      simp only [List.mem_append, List.mem_map, List.mem_singleton] at hrr hrow
      rcases hrr with hrr | ⟨id, hid, rfl⟩ <;> rcases hrow with hrow | rfl
      · exact i3 rr hrr row hrow heq
      · obtain ⟨row', hrow', hid'⟩ := i1 rr hrr
        exact absurd (hid'.trans heq.symm) (hno row' hrow')
      · exact absurd heq (hno row hrow)
      · exact fun e => hids id hid e.symm

theorem updateStatusRow_author (prID status : String) (mergedAt : Option Nat)
    (row : PullRequestRow) :
    (Repository.updateStatusRow prID status mergedAt row).author_id = row.author_id := by
  unfold Repository.updateStatusRow
  split
  · split <;> rfl
  · rfl

theorem inv_merge {db db' : Store} {now : Nat} {prID : String}
    (he : MergeEffect db db' now prID) (h : Inv db) : Inv db' := by
  rcases he with rfl | ⟨row0, _, _, rfl⟩
  · exact h
  · obtain ⟨i1, i2, i3⟩ := h
    refine ⟨?_, ?_, ?_⟩
    · intro rr hrr
      obtain ⟨row, hrow, hid⟩ := i1 rr hrr
      exact ⟨_, List.mem_map.mpr ⟨row, hrow, rfl⟩, (updateStatusRow_id _ _ _ _).trans hid⟩
    · intro r1 h1 r2 h2 heq
      obtain ⟨a1, ha1, rfl⟩ := List.mem_map.mp h1
      obtain ⟨a2, ha2, rfl⟩ := List.mem_map.mp h2
      rw [updateStatusRow_id, updateStatusRow_id] at heq
      rw [updateStatusRow_author, updateStatusRow_author]
      exact i2 a1 ha1 a2 ha2 heq
    · intro rr hrr row hrow heq
      obtain ⟨a, ha, rfl⟩ := List.mem_map.mp hrow
      rw [updateStatusRow_id] at heq
      rw [updateStatusRow_author]
      exact i3 rr hrr a ha heq

theorem inv_reassign {db db' : Store} {prID oldReviewerID : String}
    (he : ReassignEffect db db' prID oldReviewerID) (h : Inv db) : Inv db' := by
  rcases he with rfl | ⟨row0, new, hrow0, _, hne, rfl⟩
  · exact h
  · obtain ⟨i1, i2, i3⟩ := h
    have hmem0 : row0 ∈ db.pull_requests := List.mem_of_find?_eq_some hrow0
    have hid0 : row0.id = prID := by
      have := List.find?_some hrow0
      simpa using this
    refine ⟨?_, i2, ?_⟩
    · intro rr hrr
      simp only [Repository.deleteReviewer, List.mem_append, List.mem_filter,
        List.mem_singleton] at hrr
      rcases hrr with ⟨hrr, _⟩ | rfl
      · exact i1 rr hrr
      · exact ⟨row0, hmem0, hid0⟩
    · intro rr hrr row hrow heq
      simp only [Repository.deleteReviewer, List.mem_append, List.mem_filter,
        List.mem_singleton] at hrr
      rcases hrr with ⟨hrr, _⟩ | rfl
      · exact i3 rr hrr row hrow heq
      · have hauth := i2 row hrow row0 hmem0 (heq.trans hid0.symm)
        rw [hauth]
        exact fun e => hne e.symm

theorem inv_step (sch : Schema) (tsch : TeamSchema) (db : Store)
    (outcomes : List Outcome) (op : Op) (h : Inv db) :
    Inv (op.run sch tsch db outcomes) := by
  cases op with
  | createTeam team =>
    have he := CreateTeam_effect tsch ⟨db, outcomes⟩ team
    exact inv_of_tables_eq he.1 he.2 h
  | setUserActive userID isActive =>
    have he := SetUserActive_effect ⟨db, outcomes⟩ userID isActive
    exact inv_of_tables_eq he.1 he.2 h
  | createPullRequest r now dbNow prID title authorID =>
    exact inv_create (CreatePullRequest_effect sch r now dbNow ⟨db, outcomes⟩ prID title
      authorID) h
  | mergePullRequest now prID =>
    exact inv_merge (MergePullRequest_effect now ⟨db, outcomes⟩ prID) h
  | reassignReviewer r prID oldReviewerID =>
    exact inv_reassign (ReassignReviewer_effect sch r ⟨db, outcomes⟩ prID oldReviewerID) h

theorem inv_runOps (sch : Schema) (tsch : TeamSchema) :
    ∀ (calls : List (List Outcome × Op)) (db : Store),
      Inv db → Inv (runOps sch tsch db calls) := by
  intro calls
  induction calls with
  | nil => intro db h; exact h
  | cons call rest ih =>
    intro db h
    exact ih _ (inv_step sch tsch db call.1 call.2 h)

theorem reachable_inv {sch : Schema} {tsch : TeamSchema} {db : Store}
    (h : Reachable sch tsch db) : Inv db := by
  obtain ⟨calls, rfl⟩ := h
  exact inv_runOps sch tsch calls _ inv_empty

theorem reachable_step {sch : Schema} {tsch : TeamSchema} {db : Store}
    (h : Reachable sch tsch db) (outcomes : List Outcome) (op : Op) :
    Reachable sch tsch (op.run sch tsch db outcomes) := by
  obtain ⟨calls, rfl⟩ := h
  refine ⟨calls ++ [(outcomes, op)], ?_⟩
  have key : ∀ (l : List (List Outcome × Op)) (d : Store),
      runOps sch tsch d (l ++ [(outcomes, op)])
        = op.run sch tsch (runOps sch tsch d l) outcomes := by
    intro l
    induction l with
    | nil => intro d; rfl
    | cons x xs ih => intro d; exact ih _
  exact key calls _

theorem author_not_reviewer_of_inv {db : Store} (h : Inv db) :
    ∀ row ∈ db.pull_requests, row.author_id ∉ reviewersOf db row.id := by
  intro row hrow hmem
  simp only [reviewersOf, List.mem_map, List.mem_filter, decide_eq_true_eq] at hmem
  obtain ⟨rr, ⟨hrr, hid⟩, huser⟩ := hmem
  exact h.2.2 rr hrr row hrow hid.symm huser.symm

/-- C11: in every store state the service can reach from the empty database by
calls of `CreateTeam`, `SetUserActive`, `CreatePullRequest`, `MergePullRequest`
and `ReassignReviewer` (any arguments, random streams, schemas and round-trip
outcomes), no pull request has its author among its stored reviewers; and
whatever call comes next, `CreatePullRequest` and `ReassignReviewer` included,
this still holds afterwards. -/
theorem reachable_author_not_reviewer (sch : Schema) (tsch : TeamSchema) (db : Store)
    (h : Reachable sch tsch db) :
    (∀ row ∈ db.pull_requests, row.author_id ∉ reviewersOf db row.id)
      ∧ (∀ (outcomes : List Outcome) (op : Op),
          ∀ row ∈ (op.run sch tsch db outcomes).pull_requests,
            row.author_id ∉ reviewersOf (op.run sch tsch db outcomes) row.id) :=
  ⟨author_not_reviewer_of_inv (reachable_inv h),
    fun outcomes op =>
      author_not_reviewer_of_inv (reachable_inv (reachable_step h outcomes op))⟩

theorem reachable_author_not_reviewer_witness :
    Reachable Schema.free TeamSchema.keyed
        ⟨[⟨"core", "core"⟩],
          [⟨"A", "a", "core", true⟩, ⟨"B", "b", "core", true⟩, ⟨"C", "c", "core", true⟩,
            ⟨"D", "d", "core", true⟩],
          [⟨"pr1", "t", "A", "OPEN", 11, none⟩],
          [⟨"pr1", "D"⟩, ⟨"pr1", "D"⟩, ⟨"pr1", "B"⟩]⟩
      ∧ ∀ row ∈ [(⟨"pr1", "t", "A", "OPEN", 11, none⟩ : PullRequestRow)],
          row.author_id ∉ reviewersOf
            ⟨[⟨"core", "core"⟩],
              [⟨"A", "a", "core", true⟩, ⟨"B", "b", "core", true⟩, ⟨"C", "c", "core", true⟩,
                ⟨"D", "d", "core", true⟩],
              [⟨"pr1", "t", "A", "OPEN", 11, none⟩],
              [⟨"pr1", "D"⟩, ⟨"pr1", "D"⟩, ⟨"pr1", "B"⟩]⟩ row.id :=
  ⟨⟨[([], .createTeam ⟨"core", [⟨"A", "a", "core", true⟩, ⟨"B", "b", "core", true⟩,
        ⟨"C", "c", "core", true⟩, ⟨"D", "d", "core", true⟩]⟩),
      ([], .createPullRequest (fun _ => 0) 10 11 "pr1" "t" "A"),
      ([], .reassignReviewer (fun _ => 0) "pr1" "C")], rfl⟩,
    (reachable_author_not_reviewer Schema.free TeamSchema.keyed _
      ⟨[([], .createTeam ⟨"core", [⟨"A", "a", "core", true⟩, ⟨"B", "b", "core", true⟩,
          ⟨"C", "c", "core", true⟩, ⟨"D", "d", "core", true⟩]⟩),
        ([], .createPullRequest (fun _ => 0) 10 11 "pr1" "t" "A"),
        ([], .reassignReviewer (fun _ => 0) "pr1" "C")], rfl⟩).1⟩

/-! ## Replacement pool -/

theorem get_of_eq_singleton (x : String) :
    ∀ (l : List String) (i : Fin l.length), l = [x] → l.get i = x := by
  intro l i h
  subst h
  match i with
  | ⟨0, _⟩ => rfl

theorem selectNewReviewer_singleton (r : Rand) (pr : PullRequest) (oldReviewerID : String)
    (candidates : List User) (x : String)
    (h : availableCandidates pr oldReviewerID candidates = [x]) :
    selectNewReviewer r pr oldReviewerID candidates = .ok x := by
  unfold selectNewReviewer
  split
  · next h0 => rw [h] at h0; simp at h0
  · rw [get_of_eq_singleton x _ _ h]

theorem selectNewReviewer_nil (r : Rand) (pr : PullRequest) (oldReviewerID : String)
    (candidates : List User)
    (h : availableCandidates pr oldReviewerID candidates = []) :
    selectNewReviewer r pr oldReviewerID candidates = .error "no available candidates" := by
  unfold selectNewReviewer
  split
  · rfl
  · next h0 => rw [h] at h0; simp at h0

/-- `Service.ReassignReviewer` rebuilt from the results of its steps. -/
theorem ReassignReviewer_of_steps {sch : Schema} {r : Rand} {c c1 c2 c3 c4 c5 : Conn}
    {prID oldReviewerID newReviewerID : String} {updatedPR : PullRequest}
    (pr : PullRequest) (oldReviewer : User) (candidates : List User)
    (h1 : Repository.GetPullRequest c prID = (.ok pr, c1))
    (hst : pr.Status ≠ "MERGED")
    (hcur : isCurrentReviewer pr oldReviewerID = true)
    (h2 : Repository.GetUser c1 oldReviewerID = (.ok oldReviewer, c2))
    (h3 : Repository.GetActiveUsersByTeam c2 oldReviewer.TeamName = (.ok candidates, c3))
    (h4 : selectNewReviewer r pr oldReviewerID candidates = .ok newReviewerID)
    (h5 : Repository.ReassignReviewer sch c3 prID oldReviewerID newReviewerID = (.ok (), c4))
    (h6 : Repository.GetPullRequest c4 prID = (.ok updatedPR, c5)) :
    Service.ReassignReviewer sch r c prID oldReviewerID
      = (.ok ⟨updatedPR, newReviewerID⟩, c5) := by
  simp [Service.ReassignReviewer, h1, hst, hcur, h2, h3, h4, h5, h6]

/-- `Service.ReassignReviewer` when the selection finds no candidate. -/
theorem ReassignReviewer_of_steps_none {sch : Schema} {r : Rand} {c c1 c2 c3 : Conn}
    {prID oldReviewerID e : String}
    (pr : PullRequest) (oldReviewer : User) (candidates : List User)
    (h1 : Repository.GetPullRequest c prID = (.ok pr, c1))
    (hst : pr.Status ≠ "MERGED")
    (hcur : isCurrentReviewer pr oldReviewerID = true)
    (h2 : Repository.GetUser c1 oldReviewerID = (.ok oldReviewer, c2))
    (h3 : Repository.GetActiveUsersByTeam c2 oldReviewer.TeamName = (.ok candidates, c3))
    (h4 : selectNewReviewer r pr oldReviewerID candidates = .error e) :
    Service.ReassignReviewer sch r c prID oldReviewerID = (.error "NO_CANDIDATE", c3) := by
  simp [Service.ReassignReviewer, h1, hst, hcur, h2, h3, h4]

/-- C13, counterexample: after B has been replaced by D (reviewers C and D), the
second call, with old reviewer D, does not fail: B is active, is not the author,
is not D and is no longer assigned, so B is returned. -/
theorem scenarioB_second_call_counterexample :
    Service.ReassignReviewer Schema.keyed (fun _ => 0)
        ⟨⟨[⟨"t1", "core"⟩],
            [⟨"A", "a", "t1", true⟩, ⟨"B", "b", "t1", true⟩, ⟨"C", "c", "t1", true⟩,
              ⟨"D", "d", "t1", true⟩],
            [⟨"pr1", "t", "A", "OPEN", 11, none⟩], [⟨"pr1", "B"⟩, ⟨"pr1", "C"⟩]⟩, []⟩ "pr1" "B"
      = (.ok ⟨⟨"pr1", "t", "A", "OPEN", ["C", "D"], 11, none⟩, "D"⟩,
        ⟨⟨[⟨"t1", "core"⟩],
            [⟨"A", "a", "t1", true⟩, ⟨"B", "b", "t1", true⟩, ⟨"C", "c", "t1", true⟩,
              ⟨"D", "d", "t1", true⟩],
            [⟨"pr1", "t", "A", "OPEN", 11, none⟩], [⟨"pr1", "C"⟩, ⟨"pr1", "D"⟩]⟩, []⟩)
      ∧ Service.ReassignReviewer Schema.keyed (fun _ => 0)
        ⟨⟨[⟨"t1", "core"⟩],
            [⟨"A", "a", "t1", true⟩, ⟨"B", "b", "t1", true⟩, ⟨"C", "c", "t1", true⟩,
              ⟨"D", "d", "t1", true⟩],
            [⟨"pr1", "t", "A", "OPEN", 11, none⟩], [⟨"pr1", "C"⟩, ⟨"pr1", "D"⟩]⟩, []⟩ "pr1" "D"
      = (.ok ⟨⟨"pr1", "t", "A", "OPEN", ["C", "B"], 11, none⟩, "B"⟩,
        ⟨⟨[⟨"t1", "core"⟩],
            [⟨"A", "a", "t1", true⟩, ⟨"B", "b", "t1", true⟩, ⟨"C", "c", "t1", true⟩,
              ⟨"D", "d", "t1", true⟩],
            [⟨"pr1", "t", "A", "OPEN", 11, none⟩], [⟨"pr1", "C"⟩, ⟨"pr1", "B"⟩]⟩, []⟩) :=
  ⟨rfl, rfl⟩

/-- C13, amended: for a pull request of A with reviewers B and C and the active
team A, B, C, D, `ReassignReviewer(pr1, B)` returns D for every random draw and
leaves the reviewers C and D; the next call, with old reviewer D, returns B for
every draw and leaves C and B; it fails with `NO_CANDIDATE` when no eligible
candidate is left, as when B has been deactivated in between. -/
theorem scenarioB (r : Rand) :
    Service.ReassignReviewer Schema.keyed r
        ⟨⟨[⟨"t1", "core"⟩],
            [⟨"A", "a", "t1", true⟩, ⟨"B", "b", "t1", true⟩, ⟨"C", "c", "t1", true⟩,
              ⟨"D", "d", "t1", true⟩],
            [⟨"pr1", "t", "A", "OPEN", 11, none⟩], [⟨"pr1", "B"⟩, ⟨"pr1", "C"⟩]⟩, []⟩ "pr1" "B"
      = (.ok ⟨⟨"pr1", "t", "A", "OPEN", ["C", "D"], 11, none⟩, "D"⟩,
        ⟨⟨[⟨"t1", "core"⟩],
            [⟨"A", "a", "t1", true⟩, ⟨"B", "b", "t1", true⟩, ⟨"C", "c", "t1", true⟩,
              ⟨"D", "d", "t1", true⟩],
            [⟨"pr1", "t", "A", "OPEN", 11, none⟩], [⟨"pr1", "C"⟩, ⟨"pr1", "D"⟩]⟩, []⟩)
      ∧ Service.ReassignReviewer Schema.keyed r
        ⟨⟨[⟨"t1", "core"⟩],
            [⟨"A", "a", "t1", true⟩, ⟨"B", "b", "t1", true⟩, ⟨"C", "c", "t1", true⟩,
              ⟨"D", "d", "t1", true⟩],
            [⟨"pr1", "t", "A", "OPEN", 11, none⟩], [⟨"pr1", "C"⟩, ⟨"pr1", "D"⟩]⟩, []⟩ "pr1" "D"
      = (.ok ⟨⟨"pr1", "t", "A", "OPEN", ["C", "B"], 11, none⟩, "B"⟩,
        ⟨⟨[⟨"t1", "core"⟩],
            [⟨"A", "a", "t1", true⟩, ⟨"B", "b", "t1", true⟩, ⟨"C", "c", "t1", true⟩,
              ⟨"D", "d", "t1", true⟩],
            [⟨"pr1", "t", "A", "OPEN", 11, none⟩], [⟨"pr1", "C"⟩, ⟨"pr1", "B"⟩]⟩, []⟩)
      ∧ Service.ReassignReviewer Schema.keyed r
        ⟨⟨[⟨"t1", "core"⟩],
            [⟨"A", "a", "t1", true⟩, ⟨"B", "b", "t1", false⟩, ⟨"C", "c", "t1", true⟩,
              ⟨"D", "d", "t1", true⟩],
            [⟨"pr1", "t", "A", "OPEN", 11, none⟩], [⟨"pr1", "C"⟩, ⟨"pr1", "D"⟩]⟩, []⟩ "pr1" "D"
      = (.error "NO_CANDIDATE",
        ⟨⟨[⟨"t1", "core"⟩],
            [⟨"A", "a", "t1", true⟩, ⟨"B", "b", "t1", false⟩, ⟨"C", "c", "t1", true⟩,
              ⟨"D", "d", "t1", true⟩],
            [⟨"pr1", "t", "A", "OPEN", 11, none⟩], [⟨"pr1", "C"⟩, ⟨"pr1", "D"⟩]⟩, []⟩) := by
  refine ⟨?_, ?_, ?_⟩
  · exact ReassignReviewer_of_steps ⟨"pr1", "t", "A", "OPEN", ["B", "C"], 11, none⟩
      ⟨"B", "b", "core", true⟩
      ([⟨"A", "a", "core", true⟩, ⟨"B", "b", "core", true⟩,
        ⟨"C", "c", "core", true⟩, ⟨"D", "d", "core", true⟩])
      rfl (by decide) rfl rfl rfl (selectNewReviewer_singleton r _ _ _ "D" rfl) rfl rfl
  · exact ReassignReviewer_of_steps ⟨"pr1", "t", "A", "OPEN", ["C", "D"], 11, none⟩
      ⟨"D", "d", "core", true⟩
      ([⟨"A", "a", "core", true⟩, ⟨"B", "b", "core", true⟩,
        ⟨"C", "c", "core", true⟩, ⟨"D", "d", "core", true⟩])
      rfl (by decide) rfl rfl rfl (selectNewReviewer_singleton r _ _ _ "B" rfl) rfl rfl
  · exact ReassignReviewer_of_steps_none
      ⟨"pr1", "t", "A", "OPEN", ["C", "D"], 11, none⟩
      ⟨"D", "d", "core", true⟩
      ([⟨"A", "a", "core", true⟩, ⟨"C", "c", "core", true⟩,
        ⟨"D", "d", "core", true⟩])
      rfl (by decide) rfl rfl rfl (selectNewReviewer_nil r _ _ _ rfl)

/-! ## Preconditions of creation -/

theorem PRExists_nil (db : Store) (prID : String) :
    Repository.PRExists ⟨db, []⟩ prID
      = (.ok (db.pull_requests.any (fun row => decide (row.id = prID))), ⟨db, []⟩) := rfl

theorem GetUser_nil_unknown (db : Store) (userID : String)
    (h : ∀ u ∈ db.users, u.id ≠ userID) :
    Repository.GetUser ⟨db, []⟩ userID = (.error "user not found", ⟨db, []⟩) := by
  have hnone : (usersJoinTeams db).find? (fun ut => decide (ut.1.id = userID)) = none := by
    rw [List.find?_eq_none]
    intro ut hut
    simp only [usersJoinTeams, List.mem_flatMap, List.mem_map, List.mem_filter] at hut
    obtain ⟨u, hu, t, _, rfl⟩ := hut
    simpa using h u hu
  simp only [Repository.GetUser, roundTrip_nil, hnone]

/-- C14: on a responsive store, `CreatePullRequest` with an id already used fails
with `PR_EXISTS`, whoever the author is, known or not; with an unused id and an
author id no stored user has, it fails with `AUTHOR_NOT_FOUND`; in both cases
the connection is left with the same tables: no pull request row and no
reviewer row is written. -/
theorem CreatePullRequest_precondition (sch : Schema) (r : Rand) (now dbNow : Nat)
    (db : Store) (prID title authorID : String) :
    ((∃ row ∈ db.pull_requests, row.id = prID) →
        Service.CreatePullRequest sch r now dbNow ⟨db, []⟩ prID title authorID
          = (.error "PR_EXISTS", ⟨db, []⟩))
      ∧ ((∀ row ∈ db.pull_requests, row.id ≠ prID) → (∀ u ∈ db.users, u.id ≠ authorID) →
        Service.CreatePullRequest sch r now dbNow ⟨db, []⟩ prID title authorID
          = (.error "AUTHOR_NOT_FOUND", ⟨db, []⟩)) := by
  constructor
  · rintro ⟨row, hrow, hid⟩
    have hany : db.pull_requests.any (fun row => decide (row.id = prID)) = true := by
      rw [List.any_eq_true]
      exact ⟨row, hrow, by simp [hid]⟩
    simp only [Service.CreatePullRequest, PRExists_nil, hany]
  · intro hno hunknown
    have hany : db.pull_requests.any (fun row => decide (row.id = prID)) = false := by
      rw [List.any_eq_false]
      intro row hrow
      simpa using hno row hrow
    simp only [Service.CreatePullRequest, PRExists_nil, hany, GetUser_nil_unknown db authorID hunknown]

theorem CreatePullRequest_precondition_witness :
    Service.CreatePullRequest Schema.keyed (fun _ => 0) 10 11
        ⟨⟨[⟨"t1", "core"⟩], [⟨"A", "a", "t1", true⟩, ⟨"B", "b", "t1", true⟩],
          [⟨"pr1", "t", "A", "OPEN", 11, none⟩], [⟨"pr1", "B"⟩]⟩, []⟩ "pr1" "again" "Z"
      = (.error "PR_EXISTS",
        ⟨⟨[⟨"t1", "core"⟩], [⟨"A", "a", "t1", true⟩, ⟨"B", "b", "t1", true⟩],
          [⟨"pr1", "t", "A", "OPEN", 11, none⟩], [⟨"pr1", "B"⟩]⟩, []⟩)
      ∧ Service.CreatePullRequest Schema.keyed (fun _ => 0) 10 11
        ⟨⟨[⟨"t1", "core"⟩], [⟨"A", "a", "t1", true⟩, ⟨"B", "b", "t1", true⟩],
          [⟨"pr1", "t", "A", "OPEN", 11, none⟩], [⟨"pr1", "B"⟩]⟩, []⟩ "pr2" "new" "Z"
      = (.error "AUTHOR_NOT_FOUND",
        ⟨⟨[⟨"t1", "core"⟩], [⟨"A", "a", "t1", true⟩, ⟨"B", "b", "t1", true⟩],
          [⟨"pr1", "t", "A", "OPEN", 11, none⟩], [⟨"pr1", "B"⟩]⟩, []⟩) :=
  ⟨(CreatePullRequest_precondition Schema.keyed (fun _ => 0) 10 11
      ⟨[⟨"t1", "core"⟩], [⟨"A", "a", "t1", true⟩, ⟨"B", "b", "t1", true⟩],
        [⟨"pr1", "t", "A", "OPEN", 11, none⟩], [⟨"pr1", "B"⟩]⟩ "pr1" "again" "Z").1
      ⟨_, List.mem_singleton.mpr rfl, rfl⟩,
    (CreatePullRequest_precondition Schema.keyed (fun _ => 0) 10 11
      ⟨[⟨"t1", "core"⟩], [⟨"A", "a", "t1", true⟩, ⟨"B", "b", "t1", true⟩],
        [⟨"pr1", "t", "A", "OPEN", 11, none⟩], [⟨"pr1", "B"⟩]⟩ "pr2" "new" "Z").2
      (by decide) (by decide)⟩

/-! ## MERGED is terminal -/

theorem id_of_find {rows : List PullRequestRow} {p : String} {row : PullRequestRow}
    (h : rows.find? (fun x => decide (x.id = p)) = some row) : row.id = p := by
  have := List.find?_some h
  simpa using this

theorem keepsMerged_of_tables_eq {db db' : Store} {p : String} {row : PullRequestRow}
    (h1 : db'.pull_requests = db.pull_requests) (h2 : db'.pr_reviewers = db.pr_reviewers)
    (hrow : db.pull_requests.find? (fun x => decide (x.id = p)) = some row) :
    KeepsMerged db db' p row := by
  unfold KeepsMerged reviewersOf
  rw [h1, h2]
  exact ⟨⟨row, hrow, Or.inl rfl⟩, fun _ => ⟨hrow, rfl⟩⟩

theorem keepsMerged_create {db db' : Store} {dbNow : Nat} {prID title authorID p : String}
    {row : PullRequestRow} (he : CreateEffect db db' dbNow prID title authorID)
    (hrow : db.pull_requests.find? (fun x => decide (x.id = p)) = some row) :
    KeepsMerged db db' p row := by
  rcases he with rfl | ⟨hex, ids, _, rfl⟩
  · exact keepsMerged_of_tables_eq rfl rfl hrow
  · have hne : p ≠ prID := by
      have h1 := not_exists_of_any_false hex row (List.mem_of_find?_eq_some hrow)
      rw [id_of_find hrow] at h1
      exact h1
    have hfind : (db.pull_requests ++ [(⟨prID, title, authorID, "OPEN", dbNow, none⟩ :
        PullRequestRow)]).find? (fun x => decide (x.id = p)) = some row := by
      rw [List.find?_append, hrow]
      rfl
    have hrev : reviewersOf ⟨db.teams, db.users,
          db.pull_requests ++ [⟨prID, title, authorID, "OPEN", dbNow, none⟩],
          db.pr_reviewers ++ ids.map (fun id => ⟨prID, id⟩)⟩ p = reviewersOf db p := by
      simp only [reviewersOf, List.filter_append, List.map_append]
      have hnil : (ids.map (fun id => (⟨prID, id⟩ : ReviewerRow))).filter
          (fun row => decide (row.pr_id = p)) = [] := by
        rw [List.filter_eq_nil_iff]
        intro rr hrr
        obtain ⟨id, _, rfl⟩ := List.mem_map.mp hrr
        simpa using Ne.symm hne
      rw [hnil, List.map_nil, List.append_nil]
    exact ⟨⟨row, hfind, Or.inl rfl⟩, fun _ => ⟨hfind, hrev⟩⟩

theorem find_updateStatusRow_any (prID p status : String) (mergedAt : Option Nat) :
    ∀ rows : List PullRequestRow,
      (rows.map (Repository.updateStatusRow prID status mergedAt)).find?
          (fun row => decide (row.id = p))
        = (rows.find? (fun row => decide (row.id = p))).map
            (Repository.updateStatusRow prID status mergedAt) := by
  intro rows
  induction rows with
  | nil => rfl
  | cons x xs ih =>
    simp only [List.map_cons, List.find?_cons, updateStatusRow_id]
    split
    · rfl
    · exact ih

theorem keepsMerged_merge {db db' : Store} {now : Nat} {prID p : String}
    {row : PullRequestRow} (he : MergeEffect db db' now prID)
    (hrow : db.pull_requests.find? (fun x => decide (x.id = p)) = some row) :
    KeepsMerged db db' p row := by
  rcases he with rfl | ⟨row0, hrow0, hst0, rfl⟩
  · exact keepsMerged_of_tables_eq rfl rfl hrow
  · have hfind := find_updateStatusRow prID "MERGED" (some now) db.pull_requests
    by_cases hp : p = prID
    · subst hp
      rw [hrow] at hrow0
      cases hrow0
      rw [hrow] at hfind
      have hupd : (Repository.updateStatusRow p "MERGED" (some now) row).status = "MERGED" := by
        simp [Repository.updateStatusRow, id_of_find hrow]
      exact ⟨⟨_, hfind, Or.inr ⟨hst0, hupd⟩⟩, fun h => absurd h hst0⟩
    · have hsame : Repository.updateStatusRow prID "MERGED" (some now) row = row := by
        have hid := id_of_find hrow
        have : ¬ row.id = prID := fun e => hp (hid.symm.trans e)
        simp [Repository.updateStatusRow, this]
      have hf : (db.pull_requests.map (Repository.updateStatusRow prID "MERGED"
          (some now))).find? (fun x => decide (x.id = p)) = some row := by
        have h3 := find_updateStatusRow_any prID p "MERGED" (some now) db.pull_requests
        rw [h3, hrow, Option.map_some', hsame]
      exact ⟨⟨row, hf, Or.inl rfl⟩, fun _ => ⟨hf, rfl⟩⟩

theorem keepsMerged_reassign {db db' : Store} {prID oldReviewerID p : String}
    {row : PullRequestRow} (he : ReassignEffect db db' prID oldReviewerID)
    (hrow : db.pull_requests.find? (fun x => decide (x.id = p)) = some row) :
    KeepsMerged db db' p row := by
  rcases he with rfl | ⟨row0, new, hrow0, hst0, _, rfl⟩
  · exact keepsMerged_of_tables_eq rfl rfl hrow
  · refine ⟨⟨row, hrow, Or.inl rfl⟩, fun hst => ⟨hrow, ?_⟩⟩
    by_cases hp : p = prID
    · subst hp
      rw [hrow] at hrow0
      cases hrow0
      exact absurd hst hst0
    · exact reviewersOf_reassign_other db prID oldReviewerID new p hp

theorem keepsMerged_step (sch : Schema) (tsch : TeamSchema) (db : Store)
    (outcomes : List Outcome) (op : Op) (p : String) (row : PullRequestRow)
    (hrow : db.pull_requests.find? (fun x => decide (x.id = p)) = some row) :
    KeepsMerged db (op.run sch tsch db outcomes) p row := by
  cases op with
  | createTeam team =>
    have he := CreateTeam_effect tsch ⟨db, outcomes⟩ team
    exact keepsMerged_of_tables_eq he.1 he.2 hrow
  | setUserActive userID isActive =>
    have he := SetUserActive_effect ⟨db, outcomes⟩ userID isActive
    exact keepsMerged_of_tables_eq he.1 he.2 hrow
  | createPullRequest r now dbNow prID title authorID =>
    exact keepsMerged_create (CreatePullRequest_effect sch r now dbNow ⟨db, outcomes⟩ prID
      title authorID) hrow
  | mergePullRequest now prID =>
    exact keepsMerged_merge (MergePullRequest_effect now ⟨db, outcomes⟩ prID) hrow
  | reassignReviewer r prID oldReviewerID =>
    exact keepsMerged_reassign (ReassignReviewer_effect sch r ⟨db, outcomes⟩ prID
      oldReviewerID) hrow

theorem updateStatusRow_status (prID : String) (now : Nat) (row : PullRequestRow) :
    (Repository.updateStatusRow prID "MERGED" (some now) row).status = "MERGED"
      ∨ Repository.updateStatusRow prID "MERGED" (some now) row = row := by
  unfold Repository.updateStatusRow
  split
  · exact Or.inl rfl
  · exact Or.inr rfl

theorem status_step (sch : Schema) (tsch : TeamSchema) (db : Store)
    (outcomes : List Outcome) (op : Op)
    (h : ∀ row ∈ db.pull_requests, row.status = "OPEN" ∨ row.status = "MERGED") :
    ∀ row ∈ (op.run sch tsch db outcomes).pull_requests,
      row.status = "OPEN" ∨ row.status = "MERGED" := by
  cases op with
  | createTeam team =>
    simp only [Op.run, (CreateTeam_effect tsch ⟨db, outcomes⟩ team).1]
    exact h
  | setUserActive userID isActive =>
    simp only [Op.run, (SetUserActive_effect ⟨db, outcomes⟩ userID isActive).1]
    exact h
  | createPullRequest r now dbNow prID title authorID =>
    rcases CreatePullRequest_effect sch r now dbNow ⟨db, outcomes⟩ prID title authorID
      with he | ⟨_, ids, _, he⟩
    · simp only [Op.run, he]; exact h
    · simp only [Op.run, he]
      intro row hrow
      rcases List.mem_append.mp hrow with h1 | h1
      · exact h row h1
      · rw [List.mem_singleton.mp h1]; exact Or.inl rfl
  | mergePullRequest now prID =>
    rcases MergePullRequest_effect now ⟨db, outcomes⟩ prID with he | ⟨_, _, _, he⟩
    · simp only [Op.run, he]; exact h
    · simp only [Op.run, he]
      intro row hrow
      obtain ⟨a, ha, rfl⟩ := List.mem_map.mp hrow
      rcases updateStatusRow_status prID now a with h1 | h1
      · exact Or.inr h1
      · rw [h1]; exact h a ha
  | reassignReviewer r prID oldReviewerID =>
    rcases ReassignReviewer_effect sch r ⟨db, outcomes⟩ prID oldReviewerID
      with he | ⟨_, _, _, _, _, he⟩
    · simp only [Op.run, he]; exact h
    · simp only [Op.run, he]; exact h

theorem reachable_status {sch : Schema} {tsch : TeamSchema} {db : Store}
    (h : Reachable sch tsch db) :
    ∀ row ∈ db.pull_requests, row.status = "OPEN" ∨ row.status = "MERGED" := by
  obtain ⟨calls, rfl⟩ := h
  have key : ∀ (l : List (List Outcome × Op)) (d : Store),
      (∀ row ∈ d.pull_requests, row.status = "OPEN" ∨ row.status = "MERGED") →
      ∀ row ∈ (runOps sch tsch d l).pull_requests,
        row.status = "OPEN" ∨ row.status = "MERGED" := by
    intro l
    induction l with
    | nil => intro d hd; exact hd
    | cons x xs ih => intro d hd; exact ih _ (status_step sch tsch d x.1 x.2 hd)
  exact key calls _ (fun row hrow => by cases hrow)

/-- C15: let the store hold the pull request `p` as `row`, and let any of the
five service operations run with any arguments, schema, random stream and
round-trip outcomes. If `row` is `MERGED`, the store afterwards holds the very
same row for `p` (status `MERGED`, same merge timestamp) and the same reviewer
rows. In any case `p` is still stored, and its status is unchanged or went from
a status other than `MERGED` to `MERGED`; in a reachable store that former
status is `OPEN`. -/
theorem merged_is_terminal (sch : Schema) (tsch : TeamSchema) (db : Store)
    (outcomes : List Outcome) (op : Op) (p : String) (row : PullRequestRow)
    (hrow : db.pull_requests.find? (fun x => decide (x.id = p)) = some row) :
    (row.status = "MERGED" →
        (op.run sch tsch db outcomes).pull_requests.find? (fun x => decide (x.id = p))
            = some row
          ∧ reviewersOf (op.run sch tsch db outcomes) p = reviewersOf db p)
      ∧ (∃ row', (op.run sch tsch db outcomes).pull_requests.find?
            (fun x => decide (x.id = p)) = some row'
          ∧ (row'.status = row.status ∨ (row.status ≠ "MERGED" ∧ row'.status = "MERGED"))
          ∧ (Reachable sch tsch db →
              row'.status = row.status ∨ (row.status = "OPEN" ∧ row'.status = "MERGED"))) := by
  obtain ⟨⟨row', hfind, hstatus⟩, hmerged⟩ := keepsMerged_step sch tsch db outcomes op p row hrow
  refine ⟨hmerged, row', hfind, hstatus, ?_⟩
  intro hreach
  rcases hstatus with h | ⟨hne, h⟩
  · exact Or.inl h
  · rcases reachable_status hreach row (List.mem_of_find?_eq_some hrow) with ho | hm
    · exact Or.inr ⟨ho, h⟩
    · exact absurd hm hne

theorem merged_is_terminal_witness :
    ([(⟨"pr1", "t", "A", "MERGED", 11, some 20⟩ : PullRequestRow)].find?
        (fun x => decide (x.id = "pr1")) = some ⟨"pr1", "t", "A", "MERGED", 11, some 20⟩)
      ∧ ((Op.run Schema.keyed TeamSchema.keyed
            ⟨[⟨"t1", "core"⟩],
              [⟨"A", "a", "t1", true⟩, ⟨"B", "b", "t1", true⟩, ⟨"C", "c", "t1", true⟩],
              [⟨"pr1", "t", "A", "MERGED", 11, some 20⟩], [⟨"pr1", "B"⟩]⟩ []
            (.mergePullRequest 30 "pr1")).pull_requests.find?
              (fun x => decide (x.id = "pr1"))
            = some ⟨"pr1", "t", "A", "MERGED", 11, some 20⟩
          ∧ reviewersOf (Op.run Schema.keyed TeamSchema.keyed
            ⟨[⟨"t1", "core"⟩],
              [⟨"A", "a", "t1", true⟩, ⟨"B", "b", "t1", true⟩, ⟨"C", "c", "t1", true⟩],
              [⟨"pr1", "t", "A", "MERGED", 11, some 20⟩], [⟨"pr1", "B"⟩]⟩ []
            (.mergePullRequest 30 "pr1")) "pr1"
            = reviewersOf ⟨[⟨"t1", "core"⟩],
              [⟨"A", "a", "t1", true⟩, ⟨"B", "b", "t1", true⟩, ⟨"C", "c", "t1", true⟩],
              [⟨"pr1", "t", "A", "MERGED", 11, some 20⟩], [⟨"pr1", "B"⟩]⟩ "pr1") :=
  ⟨rfl, (merged_is_terminal Schema.keyed TeamSchema.keyed
    ⟨[⟨"t1", "core"⟩],
      [⟨"A", "a", "t1", true⟩, ⟨"B", "b", "t1", true⟩, ⟨"C", "c", "t1", true⟩],
      [⟨"pr1", "t", "A", "MERGED", 11, some 20⟩], [⟨"pr1", "B"⟩]⟩ []
    (.mergePullRequest 30 "pr1") "pr1" ⟨"pr1", "t", "A", "MERGED", 11, some 20⟩ rfl).1 rfl⟩

/-! ## Error codes of the API -/

/-- C16, counterexample: different failure kinds with the same error code.
`AUTHOR_NOT_FOUND` and `TEAM_NOT_FOUND` both give `NOT_FOUND` on creation;
`TEAM_NOT_FOUND` and a store failure both give `INTERNAL_ERROR` on reassignment;
`NOT_FOUND` and a store failure both give `NOT_FOUND` on merge; `TEAM_EXISTS` and
a store failure both give `ERROR_CREATING_TEAM`. -/
theorem error_codes_not_injective :
    ("AUTHOR_NOT_FOUND" : String) ≠ "TEAM_NOT_FOUND"
      ∧ (prhandler.CreatePullRequest "AUTHOR_NOT_FOUND").code = "NOT_FOUND"
      ∧ (prhandler.CreatePullRequest "TEAM_NOT_FOUND").code = "NOT_FOUND"
      ∧ (prhandler.ReassignReviewer "TEAM_NOT_FOUND").code = "INTERNAL_ERROR"
      ∧ (prhandler.ReassignReviewer "begin transaction: connection lost").code
          = "INTERNAL_ERROR"
      ∧ (prhandler.MergePullRequest "NOT_FOUND").code = "NOT_FOUND"
      ∧ (prhandler.MergePullRequest "begin transaction: connection lost").code = "NOT_FOUND"
      ∧ (teamhandler.CreateTeam "TEAM_EXISTS").code = "ERROR_CREATING_TEAM"
      ∧ (teamhandler.CreateTeam "begin transaction: connection lost").code
          = "ERROR_CREATING_TEAM" := by
  refine ⟨by decide, ?_, ?_, ?_, ?_, rfl, rfl, rfl, rfl⟩ <;> decide

/-- C16, amended: the reassign handler keeps `PR_MERGED`, `NOT_ASSIGNED`,
`NO_CANDIDATE` and `NOT_FOUND` apart (each gets its own name as code, so two
different kinds among them get different codes) and gives `INTERNAL_ERROR` to
everything else; the create handler gives `PR_EXISTS` its own code, `NOT_FOUND`
to `AUTHOR_NOT_FOUND` and `TEAM_NOT_FOUND` alike and `INTERNAL_ERROR` to
everything else; the merge handler gives `NOT_FOUND` and the create-team handler
`ERROR_CREATING_TEAM` to every error, the latter telling the kinds apart only
through the message, which is the error text. -/
theorem error_codes (e1 e2 : String) :
    (e1 ∈ ["PR_MERGED", "NOT_ASSIGNED", "NO_CANDIDATE", "NOT_FOUND"] →
        (prhandler.ReassignReviewer e1).code = e1
          ∧ (e2 ∈ ["PR_MERGED", "NOT_ASSIGNED", "NO_CANDIDATE", "NOT_FOUND"] → e1 ≠ e2 →
              (prhandler.ReassignReviewer e1).code ≠ (prhandler.ReassignReviewer e2).code))
      ∧ (e1 ∉ ["PR_MERGED", "NOT_ASSIGNED", "NO_CANDIDATE", "NOT_FOUND"] →
          (prhandler.ReassignReviewer e1).code = "INTERNAL_ERROR")
      ∧ ((prhandler.CreatePullRequest e1).code
          = if e1 = "PR_EXISTS" then "PR_EXISTS"
            else if e1 = "AUTHOR_NOT_FOUND" ∨ e1 = "TEAM_NOT_FOUND" then "NOT_FOUND"
            else "INTERNAL_ERROR")
      ∧ (prhandler.MergePullRequest e1).code = "NOT_FOUND"
      ∧ (teamhandler.CreateTeam e1).code = "ERROR_CREATING_TEAM"
      ∧ (teamhandler.CreateTeam e1).message = e1
      ∧ (e1 ≠ e2 → teamhandler.CreateTeam e1 ≠ teamhandler.CreateTeam e2) := by
  have hself : ∀ e, e ∈ ["PR_MERGED", "NOT_ASSIGNED", "NO_CANDIDATE", "NOT_FOUND"] →
      (prhandler.ReassignReviewer e).code = e := by
    intro e he
    simp only [List.mem_cons, List.mem_singleton, List.not_mem_nil, or_false] at he
    rcases he with rfl | rfl | rfl | rfl <;> decide
  refine ⟨?_, ?_, ?_, rfl, rfl, rfl, ?_⟩
  · intro h1
    refine ⟨hself e1 h1, ?_⟩
    intro h2 hne
    rw [hself e1 h1, hself e2 h2]
    exact hne
  · intro h1
    simp only [List.mem_cons, List.mem_singleton, List.not_mem_nil, or_false, not_or] at h1
    obtain ⟨a, b, c, d⟩ := h1
    simp [prhandler.ReassignReviewer, a, b, c, d]
  · unfold prhandler.CreatePullRequest
    split
    · rfl
    · split <;> rfl
  · intro hne heq
    have := congrArg ErrorResponse.message heq
    exact hne this

theorem error_codes_witness :
    ("PR_MERGED" : String) ∈ ["PR_MERGED", "NOT_ASSIGNED", "NO_CANDIDATE", "NOT_FOUND"]
      ∧ ("NO_CANDIDATE" : String) ∈ ["PR_MERGED", "NOT_ASSIGNED", "NO_CANDIDATE", "NOT_FOUND"]
      ∧ ("PR_MERGED" : String) ≠ "NO_CANDIDATE"
      ∧ (prhandler.ReassignReviewer "PR_MERGED").code
          ≠ (prhandler.ReassignReviewer "NO_CANDIDATE").code :=
  ⟨by decide, by decide, by decide,
    ((error_codes "PR_MERGED" "NO_CANDIDATE").1 (by decide)).2 (by decide) (by decide)⟩

end PRManager
